import Mathlib

/-!
Verification of the garnet-based NoC router core of this repository
(RoutingUnit, SwitchAllocator, InputUnit SPIN handlers, Router SPIN state)
against its natural-language specification.

The definitions below are shallow embeddings of the C++ sources under
src/mem/ruby/network/garnet/.  Each definition's doc comment names the
source function it embeds.  Components whose implementation file is not
among the provided sources (OutputUnit.cc, VirtualChannel.cc) are modelled
from the specification and say so in their doc comments.

Conventions: ticks and cycles are Nat; C++ int fields that use -1 as a
sentinel are Int; std::vector indexing is List.getD with the noted
defaults, under in-range hypotheses where the C++ relies on valid indices;
functions whose C++ body can abort (fatal, assert) return Option, none
standing for the abort.
-/

namespace Garnet

/-- flit_type (CommonTypes.hh). -/
inductive FlitType
  | HEAD | BODY | TAIL | HEAD_TAIL
  | PROBE | MOVE | CHECK_PROBE | KILL_MOVE
  | CREDIT
deriving DecidableEq, Repr

/-- VC_state_type (CommonTypes.hh). -/
inductive VCStateT
  | IDLE | VC_AB | ACTIVE
deriving DecidableEq, Repr

/-- flit_stage (CommonTypes.hh). -/
inductive FlitStage
  | I | VA | SA | ST | LT
deriving DecidableEq, Repr

/-- Counter_state (CommonTypes.hh). -/
inductive CounterState
  | off | move | frozen | deadlock_detection | forward_progress | check_probe
deriving DecidableEq, Repr

/-- RoutingAlgorithm (CommonTypes.hh): TABLE_ = 0, XY_ = 1, CUSTOM_ = 2,
ADAPTIVE_ = 3, CAR3D_ = 4, UGAL_ = 5. -/
inductive RoutingAlg
  | TABLE | XY | CUSTOM | ADAPTIVE | CAR3D | UGAL
deriving DecidableEq, Repr

/-- A NetDest is modelled as the list of destination ids it contains. -/
abbrev NetDest := List Nat

/-- NetDest::intersectionIsNotEmpty. -/
def intersectionIsNotEmpty (a b : NetDest) : Bool :=
  a.any (fun x => b.contains x)

/-- INFINITE_ (CommonTypes.hh). -/
def INFINITE : Int := 10000

/-- The fields of RouteInfo (CommonTypes.hh) read by the routing layer. -/
structure RouteInfo where
  vnet : Nat
  netDest : NetDest
  destRouter : Nat
deriving DecidableEq, Repr

/-- First loop of RoutingUnit::lookupRoutingTable: the minimum link weight
among output links whose routing-table entry intersects the destination
set, starting from INFINITE_. -/
def minCandidateWeight (weights : List Int) (tbl : List NetDest)
    (dest : NetDest) : Int :=
  (List.range tbl.length).foldl
    (fun mw link =>
      if intersectionIsNotEmpty dest (tbl.getD link []) then
        (if weights.getD link 0 ≤ mw then weights.getD link 0 else mw)
      else mw)
    INFINITE

/-- Second loop of RoutingUnit::lookupRoutingTable: the candidate output
links, i.e. links intersecting the destination whose weight equals the
minimum weight.  Listed in increasing link order, as the source scans. -/
def routeCandidates (weights : List Int) (tbl : List NetDest)
    (dest : NetDest) : List Nat :=
  (List.range tbl.length).filter
    (fun link => intersectionIsNotEmpty dest (tbl.getD link []) &&
      weights.getD link 0 == minCandidateWeight weights tbl dest)

/-- RoutingUnit::lookupRoutingTable.  tblAll is m_routing_table (indexed by
vnet, then by link), weights is m_weight_table, orderedOf is
GarnetNetwork::isVNetOrdered.  grand is the next value drawn from the
process-global C library rand() stream, which the source consults as
rand() % num_candidates for unordered vnets; it is an explicit argument
here so the dependence on the global RNG is visible.  none models the
fatal "No Route exists from this Router" abort. -/
def lookupRoutingTable (orderedOf : Nat → Bool) (grand : Nat)
    (weights : List Int) (tblAll : List (List NetDest))
    (vnet : Nat) (dest : NetDest) : Option Nat :=
  let tbl := tblAll.getD vnet []
  let cands := routeCandidates weights tbl dest
  if cands.length = 0 then none
  else
    let candidate := if orderedOf vnet then 0 else grand % cands.length
    some (cands.getD candidate 0)

/-- The two UGAL decision counters registered on Router (m_ugal_min_choices
and m_ugal_nonmin_choices); Router::incUGALMin and Router::incUGALNonMin
are their only increment paths. -/
structure UgalStats where
  ugalMin : Nat
  ugalNonMin : Nat
deriving DecidableEq, Repr

/-- RoutingUnit::outportCompute.  When the destination router is local, the
routing table picks the exact Local outport; otherwise the switch on the
configured routing algorithm runs.  The source switch has cases TABLE_,
XY_, CUSTOM_, CAR3D_ and ADAPTIVE_ plus a default falling back to the
routing table; it has no UGAL_ case, so UGAL_ reaches the default.  The
four direction-based algorithms are passed as functions: their bodies live
in the same source file and contain no call to incUGALMin or incUGALNonMin
(none exists anywhere in RoutingUnit.cc), so they cannot touch the UGAL
counters, which are threaded through unchanged on every branch. -/
def outportCompute (alg : RoutingAlg) (routerId : Nat)
    (xyFn customFn car3dFn adaptiveFn : RouteInfo → Option Nat)
    (orderedOf : Nat → Bool) (grand : Nat) (weights : List Int)
    (tblAll : List (List NetDest)) (route : RouteInfo)
    (st : UgalStats) : Option Nat × UgalStats :=
  if route.destRouter = routerId then
    (lookupRoutingTable orderedOf grand weights tblAll route.vnet route.netDest, st)
  else
    match alg with
    | .TABLE => (lookupRoutingTable orderedOf grand weights tblAll route.vnet route.netDest, st)
    | .XY => (xyFn route, st)
    | .CUSTOM => (customFn route, st)
    | .CAR3D => (car3dFn route, st)
    | .ADAPTIVE => (adaptiveFn route, st)
    | .UGAL => (lookupRoutingTable orderedOf grand weights tblAll route.vnet route.netDest, st)

/-- RoutingUnit::ChildInfo: a child edge of the escape spanning tree with
its Euler-tour interval. -/
structure ChildInfo where
  outport : Int
  tin : Int
  tout : Int
deriving DecidableEq, Repr

/-- RoutingUnit::outportEscapeVC.  tinOf is GarnetNetwork::tinOf (the
Euler-tour entry time, installed by the network; an external collaborator
per the spec).  The source also reads toutOf(dest) into a local that it
never uses.  children is m_children in insertion order; parentOutport is
m_parentOutport (-1 at the root). -/
def outportEscapeVC (routerId : Nat) (children : List ChildInfo)
    (parentOutport : Int) (tinOf : Nat → Int)
    (orderedOf : Nat → Bool) (grand : Nat) (weights : List Int)
    (tblAll : List (List NetDest)) (route : RouteInfo) : Option Int :=
  if route.destRouter = routerId then
    (lookupRoutingTable orderedOf grand weights tblAll route.vnet route.netDest).map Int.ofNat
  else
    let destTin := tinOf route.destRouter
    match children.find? (fun c => destTin ≥ c.tin && destTin < c.tout) with
    | some c => some c.outport
    | none =>
      if parentOutport ≠ -1 then some parentOutport
      else
        (lookupRoutingTable orderedOf grand weights tblAll route.vnet route.netDest).map Int.ofNat

/-- C8 helper: the index-th element as the source's .at(index) (in range by
construction whenever used). -/
def candidateAt (cands : List Nat) (idx : Nat) : Option Nat := cands[idx]?

/-- Modelled from the spec (§4.4): the per-downstream-VC state of an
OutputUnit — lifecycle state and credit count per downstream VC id
(OutputUnit.cc/hh are not among the provided sources). -/
structure OutputUnitM where
  vcStates : List VCStateT
  creditCounts : List Nat
deriving DecidableEq, Repr

/-- Modelled from the spec (§4.4): OutputUnit::has_free_vc(vnet) — some
non-escape VC of the vnet is IDLE; VC offset 0 is the escape VC and is
excluded only when escape-VC mode is enabled (it is an ordinary VC
otherwise). -/
def hasFreeVC (escEnabled : Bool) (vcsPerVnet : Nat) (ou : OutputUnitM)
    (vnet : Nat) : Bool :=
  (List.range vcsPerVnet).any (fun off =>
    (!escEnabled || off != 0) &&
      ou.vcStates.getD (vnet * vcsPerVnet + off) .ACTIVE == .IDLE)

/-- Modelled from the spec (§4.4): OutputUnit::has_free_escape_vc(vnet) —
the escape VC (offset 0 of the vnet) is IDLE and has credits. -/
def hasFreeEscapeVC (vcsPerVnet : Nat) (ou : OutputUnitM) (vnet : Nat) : Bool :=
  ou.vcStates.getD (vnet * vcsPerVnet) .ACTIVE == .IDLE &&
    decide (0 < ou.creditCounts.getD (vnet * vcsPerVnet) 0)

/-- Modelled from the spec (§4.4): OutputUnit::has_credit(vc) —
credit_count[vc] > 0. -/
def hasCredit (ou : OutputUnitM) (vc : Nat) : Bool :=
  decide (0 < ou.creditCounts.getD vc 0)

/-- The per-VC queries of an InputUnit that SwitchAllocator::send_allowed
makes, as functions of the VC id: need_stage(vc, SA_, curTick()),
get_outport(vc) and get_enqueue_time(vc). -/
structure InportView where
  needStageSA : Nat → Bool
  outportOf : Nat → Int
  enqueueTime : Nat → Nat

/-- SwitchAllocator::send_allowed.  escEnabled is the is_escape_vc_enabled
argument, ordered is isVNetOrdered(vnet), outvc is -1 for a HEAD or
HEAD_TAIL flit that still needs a downstream VC.  The pair mirrors the
(has_outvc, has_credit) locals; the final loop is the ordered-vnet
point-to-point ordering check over the vnet's VCs at this inport. -/
def send_allowed (escEnabled ordered : Bool) (vcsPerVnet : Nat)
    (ou : OutputUnitM) (iu : InportView) (invc : Nat) (outport : Int)
    (outvc : Int) : Bool :=
  let vnet := invc / vcsPerVnet
  let hc :=
    if outvc == -1 then
      if escEnabled && invc % vcsPerVnet == 0 then
        if hasFreeEscapeVC vcsPerVnet ou vnet then (true, true) else (false, false)
      else
        if hasFreeVC escEnabled vcsPerVnet ou vnet then (true, true) else (false, false)
    else (true, hasCredit ou outvc.toNat)
  if !(hc.1 && hc.2) then false
  else
    if ordered then
      !((List.range vcsPerVnet).any (fun off =>
          iu.needStageSA (vnet * vcsPerVnet + off) &&
            iu.outportOf (vnet * vcsPerVnet + off) == outport &&
            decide (iu.enqueueTime (vnet * vcsPerVnet + off) < iu.enqueueTime invc)))
    else true

/-- The per-VC SPIN bookkeeping of one InputUnit (InputUnit.cc):
m_vc_frozen and m_stall_count. -/
structure InputSpin where
  vcFrozen : List Bool
  stallCount : List Nat
deriving DecidableEq, Repr

/-- InputUnit::reset_stall — zero the stall counter, guarded against an
out-of-range VC index. -/
def reset_stall (iu : InputSpin) (vc : Int) : InputSpin :=
  if vc < 0 ∨ vc ≥ Int.ofNat iu.stallCount.length then iu
  else { iu with stallCount := iu.stallCount.set vc.toNat 0 }

/-- InputUnit::thaw_vc — clear the frozen flag and reset the stall count,
guarded against an out-of-range VC index. -/
def thaw_vc (iu : InputSpin) (vc : Int) : InputSpin :=
  if vc < 0 ∨ vc ≥ Int.ofNat iu.vcFrozen.length then iu
  else reset_stall { iu with vcFrozen := iu.vcFrozen.set vc.toNat false } vc

/-- InputUnit::freeze_vc (with the SPIN scheme enabled, as when called from
the move-registry helpers). -/
def freeze_vc (iu : InputSpin) (vc : Int) : InputSpin :=
  if vc < 0 ∨ vc ≥ Int.ofNat iu.vcFrozen.length then iu
  else { iu with vcFrozen := iu.vcFrozen.set vc.toNat true }

/-- View of one input VC as read by the SPIN control-flit handlers:
lifecycle state, latched outport (get_outport), and whether the FIFO holds
both a HEAD and a TAIL flit (VirtualChannel::containsHeadAndTail, modelled
from the spec §4.2 since VirtualChannel.cc is not among the sources). -/
structure SpinVC where
  vstate : VCStateT
  outportRt : Int
  containsHT : Bool
deriving DecidableEq, Repr

/-- The control-flit fields of flit.hh used by the SPIN handlers: flit id,
source router id, source inport, source VC, vnet, the path queue of
outports (front of the std::queue first), the must_send flag, the stamped
outport, the accumulated delay in ticks, and the scheduling time. -/
structure CtrlFlit where
  fid : Int
  sourceId : Int
  sourceInport : Int
  sourceVc : Int
  vnet : Nat
  path : List Int
  mustSend : Bool
  outport : Int
  delay : Nat
  ftime : Nat
deriving DecidableEq, Repr

/-- flit::peekPathTop — the path front, or -1 when the path is empty. -/
def peekPathTop (f : CtrlFlit) : Int := f.path.headD (-1)

/-- Router::source_id_buffer. -/
structure SourceIdBuf where
  sourceId : Int
  moveId : Int
  valid : Bool
deriving DecidableEq, Repr

/-- move_info (CommonTypes.hh). -/
structure MoveInfoE where
  inport : Nat
  vc : Int
  outport : Int
  vcAtDownstream : Int
  tailMoved : Bool
  curMoveCount : Nat
deriving DecidableEq, Repr

/-- The Router-level SPIN state read and written by the MOVE and KILL_MOVE
handlers: the counter (state, pointer, threshold cycle), the source-id
buffer, move_bit, the per-cycle kill-move flag, the move registry, and the
per-inport InputUnit SPIN bookkeeping (targets of freeze_vc/thaw_vc). -/
structure SpinState where
  counterState : CounterState
  counterInport : Nat
  counterVc : Nat
  counterThreshCycle : Nat
  srcIdBuf : SourceIdBuf
  moveBit : Bool
  killMoveProcessed : Bool
  moveRegistry : List MoveInfoE
  inputs : List InputSpin
deriving DecidableEq, Repr

/-- Apply f to the element at index i (identity when out of range); stands
for getInputUnit(i) followed by a mutation of that InputUnit. -/
def updateAt {α : Type} (i : Nat) (f : α → α) : List α → List α
  | [] => []
  | a :: rest =>
    match i with
    | 0 => f a :: rest
    | j + 1 => a :: updateAt j f rest

/-- Router::partial_check_source_id_buffer. -/
def srcIdPartialMatch (b : SourceIdBuf) (sourceId : Int) : Bool :=
  if ¬ b.valid then false else decide (b.sourceId = sourceId)

/-- Router::check_outport_entry_in_move_registry. -/
def checkOutportEntryInMoveRegistry (reg : List MoveInfoE) (outport : Int) : Bool :=
  reg.any (fun mi => mi.outport == outport)

/-- Router::create_move_info_entry — append a fresh registry entry
(inport, vc, outport, -1, false, 0) and freeze that VC at that inport. -/
def create_move_info_entry (sp : SpinState) (inport : Nat) (vc : Int)
    (outport : Int) : SpinState :=
  { sp with
    moveRegistry := sp.moveRegistry ++ [⟨inport, vc, outport, -1, false, 0⟩],
    inputs := updateAt inport (fun iu => freeze_vc iu vc) sp.inputs }

/-- Router::clear_move_registry — thaw every registered VC at its inport
and empty the registry. -/
def clear_move_registry (sp : SpinState) : SpinState :=
  { sp with
    inputs := sp.moveRegistry.foldl
      (fun ins mi => updateAt mi.inport (fun iu => thaw_vc iu mi.vc) ins) sp.inputs,
    moveRegistry := [] }

/-- Router::invalidate_move_registry_entry — thaw, at the given inport, the
VC of the first registry entry with this outport, and erase that entry. -/
def invalidate_move_registry_entry (sp : SpinState) (inport : Nat)
    (outport : Int) : SpinState :=
  match sp.moveRegistry.find? (fun mi => mi.outport == outport) with
  | none => sp
  | some mi =>
    { sp with
      inputs := updateAt inport (fun iu => thaw_vc iu mi.vc) sp.inputs,
      moveRegistry := sp.moveRegistry.eraseP (fun mi2 => mi2.outport == outport) }

/-- The scan loop of InputUnit::find_move_vc with rem VCs left, at offset
off of the vnet's base: a VC that is not ACTIVE, or whose outport
direction is Local, aborts the whole scan with -1; otherwise the first VC
whose outport equals the path top and which contains both HEAD and TAIL is
returned. -/
def findMoveVCAux (vcsPerVnet vnet : Nat) (vcs : List SpinVC)
    (outDirs : List String) (pathTop : Int) : Nat → Nat → Int
  | _, 0 => -1
  | off, rem + 1 =>
    let v := vcs.getD (vnet * vcsPerVnet + off) ⟨.IDLE, -1, false⟩
    if v.vstate ≠ .ACTIVE then -1
    else if outDirs.getD v.outportRt.toNat "" = "Local" then -1
    else if v.outportRt = pathTop ∧ v.containsHT then
      Int.ofNat (vnet * vcsPerVnet + off)
    else findMoveVCAux vcsPerVnet vnet vcs outDirs pathTop (off + 1) rem

/-- The VC of the vnet at offset k, as the SPIN scans read it. -/
abbrev vnetVC (vcsPerVnet vnet : Nat) (vcs : List SpinVC) (k : Nat) : SpinVC :=
  vcs.getD (vnet * vcsPerVnet + k) ⟨.IDLE, -1, false⟩

/-- The guard of the find_move_vc scan: the VC at offset k is ACTIVE and
its outport direction is not Local. -/
abbrev moveScanClean (vcsPerVnet vnet : Nat) (vcs : List SpinVC)
    (outDirs : List String) (k : Nat) : Prop :=
  (vnetVC vcsPerVnet vnet vcs k).vstate = .ACTIVE ∧
  outDirs.getD (vnetVC vcsPerVnet vnet vcs k).outportRt.toNat "" ≠ "Local"

/-- The target of the find_move_vc scan: the VC at offset k has the path
top as its outport and holds both a HEAD and a TAIL. -/
abbrev moveScanMatch (vcsPerVnet vnet : Nat) (vcs : List SpinVC)
    (pathTop : Int) (k : Nat) : Prop :=
  (vnetVC vcsPerVnet vnet vcs k).outportRt = pathTop ∧
  (vnetVC vcsPerVnet vnet vcs k).containsHT = true

/-- InputUnit::find_move_vc. -/
def find_move_vc (vcsPerVnet : Nat) (vcs : List SpinVC)
    (outDirs : List String) (vnet : Nat) (pathTop : Int) : Int :=
  findMoveVCAux vcsPerVnet vnet vcs outDirs pathTop 0 vcsPerVnet

/-- Router::forward_move — subtract this router's latency
(clockEdge(m_latency) - clockEdge(0)) from the accumulated delay, pop the
path top and stamp it as the outport, and stamp the send time
clockEdge(1) - 1 before queueing the MOVE. -/
def forward_move (latencyTicks sendTime : Nat) (f : CtrlFlit) : CtrlFlit :=
  { f with
    delay := f.delay - latencyTicks,
    outport := peekPathTop f, path := f.path.tail, ftime := sendTime }

/-- The state effects of an accepted MOVE at an intermediate router, in
source order: set_move_bit; latch_source_id_buffer(source id, flit id);
create_move_info_entry(m_id, mvc, path top); set_counter(m_id, mvc,
s_frozen, 1), whose s_frozen threshold is curCycle + 1. -/
def moveAcceptState (vcsPerVnet mId : Nat) (vcs : List SpinVC)
    (outDirs : List String) (sp : SpinState) (curCycle : Nat)
    (f : CtrlFlit) : SpinState :=
  let mvc := find_move_vc vcsPerVnet vcs outDirs f.vnet (peekPathTop f)
  { (create_move_info_entry
      { sp with moveBit := true, srcIdBuf := ⟨f.sourceId, f.fid, true⟩ }
      mId mvc (peekPathTop f)) with
    counterState := .frozen, counterInport := mId, counterVc := mvc.toNat,
    counterThreshCycle := curCycle + 1 }

/-- The MOVE-at-intermediate-router branch of InputUnit::wakeup (the
flit's source id differs from this router's id), combined with
Router::forward_move for the accepted case.  mId is the receiving
inport's id (m_id); latencyTicks is clockEdge(m_latency) - clockEdge(0);
sendTime is clockEdge(1) - 1 as stamped by forward_move.  none is a
dropped MOVE (counted in m_num_move_dropped). -/
def moveAtIntermediate (vcsPerVnet mId : Nat) (vcs : List SpinVC)
    (outDirs : List String) (sp : SpinState)
    (curCycle latencyTicks sendTime : Nat) (f : CtrlFlit) :
    Option (SpinState × CtrlFlit) :=
  let cs := sp.counterState
  if ¬(cs = .deadlock_detection ∨ cs = .off ∨ cs = .frozen) then none
  else if cs = .frozen ∧ srcIdPartialMatch sp.srcIdBuf f.sourceId = false then none
  else if checkOutportEntryInMoveRegistry sp.moveRegistry (peekPathTop f) then none
  else if find_move_vc vcsPerVnet vcs outDirs f.vnet (peekPathTop f) = -1 then none
  else
    some (moveAcceptState vcsPerVnet mId vcs outDirs sp curCycle f,
      forward_move latencyTicks sendTime f)

/-- The scan loop of InputUnit::create_fork_vector with rem VCs left at
offset off: abort (none) at a non-ACTIVE VC or a Local outport, otherwise
mark the VC's outport in the fork vector and record that a VC was seen. -/
def cfvAux (vcsPerVnet vnet : Nat) (vcs : List SpinVC)
    (outDirs : List String) : Nat → Nat → List Bool → Bool → Option (Bool × List Bool)
  | _, 0, fv, any => some (any, fv)
  | off, rem + 1, fv, _ =>
    let v := vcs.getD (vnet * vcsPerVnet + off) ⟨.IDLE, -1, false⟩
    if v.vstate ≠ .ACTIVE then none
    else if outDirs.getD v.outportRt.toNat "" = "Local" then none
    else cfvAux vcsPerVnet vnet vcs outDirs (off + 1) rem
      (fv.set v.outportRt.toNat true) true

/-- InputUnit::create_fork_vector: build the fork vector over the probe's
vnet.  Returns the C++ return value (false if some VC of the vnet is not
ACTIVE or has a Local outport, or the vnet has no VCs) together with the
fork vector (of size m_router->get_num_outports()). -/
def create_fork_vector (numOutports vcsPerVnet : Nat) (vcs : List SpinVC)
    (outDirs : List String) (vnet : Nat) : Bool × List Bool :=
  (cfvAux vcsPerVnet vnet vcs outDirs 0 vcsPerVnet
      (List.replicate numOutports false) false).getD
    (false, List.replicate numOutports false)

/-- Router::fork_probes: one probe copy per outport marked in the fork
vector, in outport order; each copy is a fresh PROBE carrying the probe's
source ids (with source inport set to this router's id, as wakeup latched
it via setInport), the original path with that outport appended
(std::queue push appends at the back), and the accumulated delay minus
this router's latency.  The fresh flit id drawn by the flit constructor is
not modelled (kept as the original id). -/
def fork_probes (numOutports routerId : Nat) (f : CtrlFlit) (fv : List Bool)
    (latencyTicks sendTime : Nat) : List CtrlFlit :=
  ((List.range numOutports).filter (fun op => fv.getD op false)).map
    (fun op =>
      { f with
        path := f.path ++ [Int.ofNat op],
        sourceInport := Int.ofNat routerId,
        delay := f.delay - latencyTicks, ftime := sendTime })

/-- The PROBE-at-intermediate-router branch of InputUnit::wakeup (source
id differs from the router id): drop (none) when the path length
(getNumTurns) exceeds the configured spin_max_turn_capacity; otherwise
build the fork vector and, when that succeeds, fork one probe copy per
marked outport; drop when it fails. -/
def probeAtIntermediate (numOutports vcsPerVnet maxTurnCap routerId : Nat)
    (vcs : List SpinVC) (outDirs : List String)
    (latencyTicks sendTime : Nat) (f : CtrlFlit) : Option (List CtrlFlit) :=
  if f.path.length > maxTurnCap then none
  else
    let r := create_fork_vector numOutports vcsPerVnet vcs outDirs f.vnet
    if r.1 then
      some (fork_probes numOutports routerId f r.2 latencyTicks sendTime)
    else none

/-- Outcome of the KILL_MOVE handler: deleted at its source router, or
forwarded with the updated router SPIN state. -/
inductive KillMoveOutcome
  | deleted
  | forwarded (sp1 : SpinState) (f1 : CtrlFlit)
deriving DecidableEq, Repr

/-- The KILL_MOVE branch of InputUnit::wakeup plus
Router::forward_kill_move.  At the router whose id equals the flit's
source id the flit is deleted and nothing is forwarded.  Elsewhere: when
the source id matches the latched source-id buffer, must_send is set and
the registry/latch bookkeeping runs (increment_counter_ptr, which only
re-arms the deadlock-detection counter by scanning the router's VCs, is
passed as a function); otherwise must_send is cleared; either way the
flit is forwarded with the path top popped as its outport, stamped with
sendTime = clockEdge(1) - 1.  mId is the receiving inport's id. -/
def killMoveAtRouter (routerId mId : Nat) (sp : SpinState)
    (incCtrPtr : SpinState → SpinState) (sendTime : Nat) (f : CtrlFlit) :
    KillMoveOutcome :=
  if f.sourceId = Int.ofNat routerId then .deleted
  else if srcIdPartialMatch sp.srcIdBuf f.sourceId then
    let sp0 := { sp with killMoveProcessed := true }
    let sp1 :=
      if sp0.moveRegistry.length = 1 then
        clear_move_registry
          { (incCtrPtr { sp0 with moveBit := false }) with
            srcIdBuf := ⟨-1, -1, false⟩ }
      else invalidate_move_registry_entry sp0 mId (peekPathTop f)
    .forwarded sp1 { f with
      mustSend := true, outport := peekPathTop f,
      path := f.path.tail, ftime := sendTime }
  else
    .forwarded sp { f with
      mustSend := false, outport := peekPathTop f,
      path := f.path.tail, ftime := sendTime }

/-- The data-flit fields of flit.hh read and written by SA-II: type,
stamped VC and outport, and the (pipeline stage, stage time) pair. -/
structure FlitE where
  ftype : FlitType
  vc : Int
  outport : Int
  stage : FlitStage
  stageTime : Nat
deriving DecidableEq, Repr

/-- A credit sent upstream by InputUnit::increment_credit, together with
the absolute tick at which the upstream credit link event was scheduled
(clockEdge(Cycles(1))). -/
structure CreditMsg where
  inport : Nat
  vc : Nat
  isFree : Bool
  time : Nat
  schedTick : Nat
deriving DecidableEq, Repr

/-- One input VC as SA-II reads and writes it: lifecycle state with its
set_state time, the buffered flit FIFO (front first), and the granted
downstream VC (-1 until allocated).  The FIFO and lifecycle operations are
modelled from the spec §4.2 (VirtualChannel.cc is not among the
sources). -/
structure VCData where
  vstate : VCStateT
  stateTime : Nat
  fifo : List FlitE
  outvc : Int
deriving DecidableEq, Repr

/-- Modelled from the spec (§4.2): VirtualChannel::isReady(t) — the head
flit exists, its stage is SA, and t is at or past its stage time. -/
def vcIsReady (fifo : List FlitE) (t : Nat) : Bool :=
  match fifo.head? with
  | none => false
  | some fl => fl.stage == .SA && decide (t ≥ fl.stageTime)

/-- Modelled from the spec (§4.4): OutputUnit::select_free_vc(vnet) —
return and mark ACTIVE the first free (IDLE) non-escape VC of the vnet, or
-1; offset 0 is excluded only when escape-VC mode is enabled. -/
def selectFreeVC (escEnabled : Bool) (vcsPerVnet : Nat) (ou : OutputUnitM)
    (vnet : Nat) : Int × OutputUnitM :=
  match (List.range vcsPerVnet).find? (fun off =>
      (!escEnabled || off != 0) &&
        ou.vcStates.getD (vnet * vcsPerVnet + off) .ACTIVE == .IDLE) with
  | some off =>
    (Int.ofNat (vnet * vcsPerVnet + off),
     { ou with vcStates := ou.vcStates.set (vnet * vcsPerVnet + off) .ACTIVE })
  | none => (-1, ou)

/-- Modelled from the spec (§4.4): OutputUnit::set_escape_vc(vnet) —
return and mark ACTIVE the escape VC (offset 0 of the vnet) when it is
IDLE, else -1 with the state unchanged. -/
def setEscapeVC (vcsPerVnet : Nat) (ou : OutputUnitM) (vnet : Nat) :
    Int × OutputUnitM :=
  if ou.vcStates.getD (vnet * vcsPerVnet) .ACTIVE == .IDLE then
    (Int.ofNat (vnet * vcsPerVnet),
     { ou with vcStates := ou.vcStates.set (vnet * vcsPerVnet) .ACTIVE })
  else (-1, ou)

/-- Modelled from the spec (§4.4): OutputUnit::decrement_credit(vc) —
credits are never negative, so decrementing a zero count is an assertion
failure (none). -/
def decrementCredit (ou : OutputUnitM) (vc : Nat) : Option OutputUnitM :=
  if ou.creditCounts.getD vc 0 = 0 then none
  else some { ou with
    creditCounts := ou.creditCounts.set vc (ou.creditCounts.getD vc 0 - 1) }

/-- The SwitchAllocator and router state over which one iteration of the
SA-II per-outport loop runs: the SA-I request/winner vectors, the
round-robin pointers, every inport's VCs, the output unit of the processed
outport, and the logs of upstream credits (InputUnit::increment_credit)
and crossbar grants (Router::grant_switch). -/
structure SAIIState where
  portRequests : List Int
  isEscapeReq : List Bool
  vcWinners : List Nat
  rrInportOut : Nat
  rrInvc : List Nat
  inputVCs : List (List VCData)
  outU : OutputUnitM
  creditLog : List CreditMsg
  grantLog : List (Nat × FlitE)
deriving DecidableEq, Repr

/-- InputUnit::increment_credit — append Credit(in_vc, free_signal,
curTime) to the credit queue and schedule the upstream credit link at
clockEdge(Cycles(1)); Router::wakeup asserts clockEdge() == curTick, so
that tick is curTick + period, one cycle later. -/
def incrementCredit (log : List CreditMsg) (inport invc : Nat)
    (freeSignal : Bool) (curTick period : Nat) : List CreditMsg :=
  log ++ [⟨inport, invc, freeSignal, curTick, curTick + period⟩]

/-- One scanning pass of SwitchAllocator::arbitrate_outports over the
inports: starting at inport (wrapping at numInports) with iter inports
left to try, find the first whose request equals this outport — and, in
the escape-priority pass (escOnly), whose is_escape_req flag is set. -/
def scanRequests (numInports : Nat) (reqs : List Int) (escs : List Bool)
    (outport : Int) (escOnly : Bool) : Nat → Nat → Option Nat
  | 0, _ => none
  | iter + 1, inport =>
    let ip := if inport ≥ numInports then 0 else inport
    if reqs.getD ip (-1) == outport && (!escOnly || escs.getD ip false) then
      some ip
    else scanRequests numInports reqs escs outport escOnly iter (ip + 1)

/-- SA-II winner selection for one outport: the escape-priority pass over
all inports from the round-robin start, then — only if it found nothing —
the any-requester pass. -/
def chooseInport (numInports start : Nat) (reqs : List Int)
    (escs : List Bool) (outport : Int) : Option Nat :=
  match scanRequests numInports reqs escs outport true numInports start with
  | some ip => some ip
  | none => scanRequests numInports reqs escs outport false numInports start

/-- The round-robin visiting order of the inports from a start pointer:
start, start+1, ..., wrapping once past numInports. -/
def rrOrder (numInports start : Nat) : List Nat :=
  (List.range numInports).map (fun k => (start + k) % numInports)

/-- The grant-processing tail of SwitchAllocator::arbitrate_outports, from
"remove flit from Input VC" to the round-robin pointer updates: pop the
head flit of the winning input VC, stamp outport and outvc on it,
decrement the downstream credit, advance it to ST and hand it to the
crossbar; for TAIL/HEAD_TAIL assert the VC is no longer ready, set it
IDLE at the current tick and send the upstream credit with is_free true,
otherwise send the credit with is_free false; finally clear the request
and advance both round-robin pointers.  none models a C++ assertion
failure (empty FIFO, zero credit, or the not-ready assertion). -/
def processGrant (numInports numVcs : Nat) (outport : Int)
    (inport invc outvc : Nat) (curTick period : Nat) (s : SAIIState) :
    Option SAIIState :=
  let vcs := s.inputVCs.getD inport []
  let vcd := vcs.getD invc ⟨.IDLE, 0, [], -1⟩
  match vcd.fifo with
  | [] => none
  | fl :: rest =>
    let fl1 : FlitE := { fl with
      outport := outport, vc := Int.ofNat outvc, stage := .ST,
      stageTime := curTick }
    match decrementCredit s.outU outvc with
    | none => none
    | some ou1 =>
      let isTail := fl.ftype == .TAIL || fl.ftype == .HEAD_TAIL
      if isTail ∧ vcIsReady rest curTick then none
      else
        let vcd1 : VCData :=
          if isTail then { vcd with fifo := rest, vstate := .IDLE, stateTime := curTick }
          else { vcd with fifo := rest }
        some { s with
          outU := ou1,
          grantLog := s.grantLog ++ [(inport, fl1)],
          inputVCs := s.inputVCs.set inport (vcs.set invc vcd1),
          creditLog := incrementCredit s.creditLog inport invc isTail curTick period,
          portRequests := s.portRequests.set inport (-1),
          rrInportOut := if inport + 1 ≥ numInports then 0 else inport + 1,
          rrInvc := s.rrInvc.set inport (if invc + 1 ≥ numVcs then 0 else invc + 1) }

/-- The body of the per-outport loop of SwitchAllocator::arbitrate_outports:
select the winner (escape-priority pass, then any-requester pass); for a
winner still needing a downstream VC (outvc == -1), allocate via
set_escape_vc for an escape request — on failure clear the request and do
nothing else this cycle — or via vc_allocate/select_free_vc otherwise
(whose failed assertions are none); then run the grant processing.  When
no inport requests this outport the state is returned unchanged. -/
def arbitrateOneOutport (escEnabled : Bool)
    (numInports numVcs vcsPerVnet : Nat) (outport : Int)
    (curTick period : Nat) (s : SAIIState) : Option SAIIState :=
  match chooseInport numInports s.rrInportOut s.portRequests s.isEscapeReq outport with
  | none => some s
  | some inport =>
    let invc := s.vcWinners.getD inport 0
    let vnet := invc / vcsPerVnet
    let vcs := s.inputVCs.getD inport []
    let vcd := vcs.getD invc ⟨.IDLE, 0, [], -1⟩
    if vcd.outvc = -1 then
      if s.isEscapeReq.getD inport false && escEnabled then
        let p := setEscapeVC vcsPerVnet s.outU vnet
        if p.1 = -1 then
          some { s with portRequests := s.portRequests.set inport (-1) }
        else
          let vcd1 := { vcd with outvc := p.1 }
          processGrant numInports numVcs outport inport invc p.1.toNat curTick period
            { s with
              outU := p.2,
              inputVCs := s.inputVCs.set inport (vcs.set invc vcd1) }
      else
        -- vc_allocate: escape VCs must never take this path (assert)
        if escEnabled && invc % vcsPerVnet == 0 then none
        else
          let q := selectFreeVC escEnabled vcsPerVnet s.outU vnet
          if q.1 = -1 then none
          else
            let vcd1 := { vcd with outvc := q.1 }
            processGrant numInports numVcs outport inport invc q.1.toNat curTick period
              { s with
                outU := q.2,
                inputVCs := s.inputVCs.set inport (vcs.set invc vcd1) }
    else
      processGrant numInports numVcs outport inport invc vcd.outvc.toNat
        curTick period s

theorem pick_first_eq_head (cands : List Nat) :
    (if cands.length = 0 then (none : Option Nat)
     else some (cands.getD 0 0)) = cands.head? := by
  cases cands with
  | nil => simp
  | cons a l => simp [List.getD]

theorem pick_mod_eq_getElem (cands : List Nat) (g : Nat) :
    (if cands.length = 0 then (none : Option Nat)
     else some (cands.getD (g % cands.length) 0)) =
      candidateAt cands (g % cands.length) := by
  cases cands with
  | nil => simp [candidateAt]
  | cons a l =>
    have hlt : g % (a :: l).length < (a :: l).length :=
      Nat.mod_lt _ (by simp)
    simp only [candidateAt, List.length_cons, if_neg (Nat.succ_ne_zero _)]
    rw [List.getD_eq_getElem?_getD,
      List.getElem?_eq_getElem (by simpa using hlt)]
    simp

/-- C8: the routing-table lookup characterized.  For an ordered vnet the
result is the first minimum-weight candidate, for any value of the global
rand() stream; for an unordered vnet the result is the candidate selected
by grand % num_candidates, i.e. the pick is a function of the
process-global rand() draw. -/
theorem lookupRoutingTable_characterization (orderedOf : Nat → Bool)
    (grand : Nat) (weights : List Int) (tblAll : List (List NetDest))
    (vnet : Nat) (dest : NetDest) :
    (orderedOf vnet = true →
      lookupRoutingTable orderedOf grand weights tblAll vnet dest =
        (routeCandidates weights (tblAll.getD vnet []) dest).head?) ∧
    (orderedOf vnet = false →
      lookupRoutingTable orderedOf grand weights tblAll vnet dest =
        candidateAt (routeCandidates weights (tblAll.getD vnet []) dest)
          (grand % (routeCandidates weights (tblAll.getD vnet []) dest).length)) := by
  have hdef : lookupRoutingTable orderedOf grand weights tblAll vnet dest =
      (if (routeCandidates weights (tblAll.getD vnet []) dest).length = 0 then none
       else some ((routeCandidates weights (tblAll.getD vnet []) dest).getD
         (if orderedOf vnet then 0
          else grand % (routeCandidates weights (tblAll.getD vnet []) dest).length) 0)) := rfl
  constructor
  · intro ho
    rw [hdef, ho]
    simpa using pick_first_eq_head (routeCandidates weights (tblAll.getD vnet []) dest)
  · intro ho
    rw [hdef, ho]
    simpa using pick_mod_eq_getElem (routeCandidates weights (tblAll.getD vnet []) dest) grand

/-- C8 witness: the characterization applied to a concrete unordered vnet
with two equal-weight candidates and a global rand() draw of 1. -/
theorem lookupRoutingTable_characterization_witness :
    lookupRoutingTable (fun _ => false) 1 [1, 1] [[[5], [5]]] 0 [5] =
      candidateAt (routeCandidates [1, 1] ([[[5], [5]]].getD 0 []) [5])
        (1 % (routeCandidates [1, 1] ([[[5], [5]]].getD 0 []) [5]).length) :=
  (lookupRoutingTable_characterization (fun _ => false) 1 [1, 1]
    [[[5], [5]]] 0 [5]).2 rfl

/-- C8 counterexample: on an unordered vnet with two minimum-weight
candidates, the chosen outport varies with the value drawn from the
process-global C library rand() stream — the pick is a function of the
global process RNG, not of any injected seeded RNG (no RNG state is
injected into RoutingUnit at all). -/
theorem lookupRoutingTable_global_rand_counterexample :
    lookupRoutingTable (fun _ => false) 0 [1, 1] [[[5], [5]]] 0 [5] = some 0 ∧
    lookupRoutingTable (fun _ => false) 1 [1, 1] [[[5], [5]]] 0 [5] = some 1 ∧
    lookupRoutingTable (fun _ => false) 0 [1, 1] [[[5], [5]]] 0 [5] ≠
      lookupRoutingTable (fun _ => false) 1 [1, 1] [[[5], [5]]] 0 [5] := by
  decide

/-- C1 (amended): when the configured routing algorithm is UGAL_ and the
destination router is not the local router, RoutingUnit::outportCompute
falls through the switch default and returns the plain TABLE lookup, and
neither ugal_min_choices nor ugal_nonmin_choices changes. -/
theorem ugal_dispatch_falls_back_to_table (routerId : Nat)
    (xyFn customFn car3dFn adaptiveFn : RouteInfo → Option Nat)
    (orderedOf : Nat → Bool) (grand : Nat) (weights : List Int)
    (tblAll : List (List NetDest)) (route : RouteInfo) (st : UgalStats)
    (hdest : route.destRouter ≠ routerId) :
    outportCompute .UGAL routerId xyFn customFn car3dFn adaptiveFn
        orderedOf grand weights tblAll route st =
      (lookupRoutingTable orderedOf grand weights tblAll route.vnet route.netDest, st) := by
  simp [outportCompute, hdest]

/-- C1 witness: the amended statement at a concrete non-local destination. -/
theorem ugal_dispatch_falls_back_to_table_witness :
    outportCompute .UGAL 0 (fun _ => none) (fun _ => none) (fun _ => none)
        (fun _ => none) (fun _ => true) 0 [1] [[[5]]] ⟨0, [5], 1⟩ ⟨3, 4⟩ =
      (lookupRoutingTable (fun _ => true) 0 [1] [[[5]]] 0 [5], ⟨3, 4⟩) :=
  ugal_dispatch_falls_back_to_table 0 (fun _ => none) (fun _ => none)
    (fun _ => none) (fun _ => none) (fun _ => true) 0 [1] [[[5]]]
    ⟨0, [5], 1⟩ ⟨3, 4⟩ (by decide)

/-- C1 counterexample: with algorithm UGAL_ and a non-local destination,
outportCompute leaves both UGAL counters unchanged and returns the TABLE
lookup result — contradicting the claim that it performs the UGAL-L
min/non-min comparison and increments ugal_min_choices or
ugal_nonmin_choices. -/
theorem ugal_dispatch_counterexample :
    (outportCompute .UGAL 0 (fun _ => none) (fun _ => none) (fun _ => none)
        (fun _ => none) (fun _ => true) 0 [1] [[[5]]] ⟨0, [5], 1⟩ ⟨3, 4⟩).2 = ⟨3, 4⟩ ∧
    (outportCompute .UGAL 0 (fun _ => none) (fun _ => none) (fun _ => none)
        (fun _ => none) (fun _ => true) 0 [1] [[[5]]] ⟨0, [5], 1⟩ ⟨3, 4⟩).1 =
      lookupRoutingTable (fun _ => true) 0 [1] [[[5]]] 0 [5] ∧
    (outportCompute .UGAL 0 (fun _ => none) (fun _ => none) (fun _ => none)
        (fun _ => none) (fun _ => true) 0 [1] [[[5]]] ⟨0, [5], 1⟩ ⟨3, 4⟩).1 = some 0 := by
  decide

/-- C4: for a non-local destination, escape routing returns a child outport
whose Euler-tour interval contains tin(dest) when such a child exists
(DOWN); otherwise the parent outport when not at the root (UP); otherwise,
at the root, the TABLE lookup result. -/
theorem escape_route_cases (routerId : Nat) (children : List ChildInfo)
    (parentOutport : Int) (tinOf : Nat → Int) (orderedOf : Nat → Bool)
    (grand : Nat) (weights : List Int) (tblAll : List (List NetDest))
    (route : RouteInfo) (hdest : route.destRouter ≠ routerId) :
    ((∃ c ∈ children, tinOf route.destRouter ≥ c.tin ∧ tinOf route.destRouter < c.tout) →
      ∃ c ∈ children, (tinOf route.destRouter ≥ c.tin ∧ tinOf route.destRouter < c.tout) ∧
        outportEscapeVC routerId children parentOutport tinOf orderedOf grand
          weights tblAll route = some c.outport) ∧
    ((¬ ∃ c ∈ children, tinOf route.destRouter ≥ c.tin ∧ tinOf route.destRouter < c.tout) →
      parentOutport ≠ -1 →
      outportEscapeVC routerId children parentOutport tinOf orderedOf grand
        weights tblAll route = some parentOutport) ∧
    ((¬ ∃ c ∈ children, tinOf route.destRouter ≥ c.tin ∧ tinOf route.destRouter < c.tout) →
      parentOutport = -1 →
      outportEscapeVC routerId children parentOutport tinOf orderedOf grand
        weights tblAll route =
        (lookupRoutingTable orderedOf grand weights tblAll route.vnet route.netDest).map Int.ofNat) := by
  have hcore : outportEscapeVC routerId children parentOutport tinOf orderedOf
      grand weights tblAll route =
      (match children.find?
          (fun c => tinOf route.destRouter ≥ c.tin && tinOf route.destRouter < c.tout) with
       | some c => some c.outport
       | none =>
         if parentOutport ≠ -1 then some parentOutport
         else (lookupRoutingTable orderedOf grand weights tblAll route.vnet
           route.netDest).map Int.ofNat) := by
    simp [outportEscapeVC, hdest]
  refine ⟨?_, ?_, ?_⟩
  · rintro ⟨c, hc, h1, h2⟩
    cases hfind : children.find?
        (fun c => tinOf route.destRouter ≥ c.tin && tinOf route.destRouter < c.tout) with
    | none =>
      exfalso
      have hnone := List.find?_eq_none.mp hfind c hc
      simp only [Bool.and_eq_true, decide_eq_true_eq, ge_iff_le] at hnone
      exact hnone ⟨h1, h2⟩
    | some c0 =>
      have hp := List.find?_some hfind
      simp only [Bool.and_eq_true, decide_eq_true_eq, ge_iff_le] at hp
      refine ⟨c0, List.mem_of_find?_eq_some hfind, ⟨hp.1, hp.2⟩, ?_⟩
      rw [hcore, hfind]
  · intro hnone hpar
    cases hfind : children.find?
        (fun c => tinOf route.destRouter ≥ c.tin && tinOf route.destRouter < c.tout) with
    | none =>
      rw [hcore, hfind]
      simp [hpar]
    | some c0 =>
      exfalso
      have hp := List.find?_some hfind
      simp only [Bool.and_eq_true, decide_eq_true_eq, ge_iff_le] at hp
      exact hnone ⟨c0, List.mem_of_find?_eq_some hfind, hp.1, hp.2⟩
  · intro hnone hpar
    cases hfind : children.find?
        (fun c => tinOf route.destRouter ≥ c.tin && tinOf route.destRouter < c.tout) with
    | none =>
      rw [hcore, hfind]
      simp [hpar]
    | some c0 =>
      exfalso
      have hp := List.find?_some hfind
      simp only [Bool.and_eq_true, decide_eq_true_eq, ge_iff_le] at hp
      exact hnone ⟨c0, List.mem_of_find?_eq_some hfind, hp.1, hp.2⟩

theorem hasFreeVC_standard_iff (vcsPerVnet : Nat) (ou : OutputUnitM) (vnet : Nat) :
    hasFreeVC false vcsPerVnet ou vnet = true ↔
      ∃ off < vcsPerVnet,
        ou.vcStates.getD (vnet * vcsPerVnet + off) .ACTIVE = .IDLE := by
  simp [hasFreeVC, List.any_eq_true, List.mem_range]

theorem ordered_conflict_iff (iu : InportView) (vcsPerVnet invc : Nat)
    (outport : Int) :
    ((List.range vcsPerVnet).any (fun off =>
        iu.needStageSA (invc / vcsPerVnet * vcsPerVnet + off) &&
          iu.outportOf (invc / vcsPerVnet * vcsPerVnet + off) == outport &&
          decide (iu.enqueueTime (invc / vcsPerVnet * vcsPerVnet + off) <
            iu.enqueueTime invc)) = true) ↔
      (∃ off < vcsPerVnet,
          invc / vcsPerVnet * vcsPerVnet + off ≠ invc ∧
          iu.needStageSA (invc / vcsPerVnet * vcsPerVnet + off) = true ∧
          iu.outportOf (invc / vcsPerVnet * vcsPerVnet + off) = outport ∧
          iu.enqueueTime (invc / vcsPerVnet * vcsPerVnet + off) <
            iu.enqueueTime invc) := by
  rw [List.any_eq_true]
  constructor
  · rintro ⟨off, hmem, hp⟩
    simp only [Bool.and_eq_true, beq_iff_eq, decide_eq_true_eq] at hp
    refine ⟨off, List.mem_range.mp hmem, ?_, hp.1.1, hp.1.2, hp.2⟩
    intro heq
    rw [heq] at hp
    exact absurd hp.2 (lt_irrefl _)
  · rintro ⟨off, hoff, _, h1, h2, h3⟩
    refine ⟨off, List.mem_range.mpr hoff, ?_⟩
    simp [h1, h2, h3]

/-- C2: in standard (non-escape) mode, send_allowed returns true iff
(a) for outvc = -1 (HEAD/HEAD_TAIL), some downstream VC of the flit's
vnet is free at the requested outport; (b) for outvc ≥ 0 (BODY/TAIL), the
credit count of outvc is positive; and (c) when the vnet is ordered, no
other VC of the same vnet at this inport holds an SA-ready flit with a
strictly earlier enqueue time requesting the same outport. -/
theorem send_allowed_standard_iff (ordered : Bool) (vcsPerVnet : Nat)
    (ou : OutputUnitM) (iu : InportView) (invc : Nat) (outport : Int)
    (outvc : Int) (houtvc : -1 ≤ outvc) :
    send_allowed false ordered vcsPerVnet ou iu invc outport outvc = true ↔
      ((outvc = -1 →
          ∃ off < vcsPerVnet,
            ou.vcStates.getD (invc / vcsPerVnet * vcsPerVnet + off) .ACTIVE = .IDLE) ∧
       (0 ≤ outvc → 0 < ou.creditCounts.getD outvc.toNat 0) ∧
       (ordered = true →
          ¬ ∃ off < vcsPerVnet,
              invc / vcsPerVnet * vcsPerVnet + off ≠ invc ∧
              iu.needStageSA (invc / vcsPerVnet * vcsPerVnet + off) = true ∧
              iu.outportOf (invc / vcsPerVnet * vcsPerVnet + off) = outport ∧
              iu.enqueueTime (invc / vcsPerVnet * vcsPerVnet + off) <
                iu.enqueueTime invc)) := by
  rcases eq_or_lt_of_le houtvc with h1 | h1
  · -- outvc = -1
    have hneg : outvc = -1 := h1.symm
    subst hneg
    have hnb : ((0 : Int) ≤ -1) = False := by simp
    cases hfv : hasFreeVC false vcsPerVnet ou (invc / vcsPerVnet) with
    | false =>
      have hsend : send_allowed false ordered vcsPerVnet ou iu invc outport (-1) = false := by
        simp [send_allowed, hfv]
      rw [hsend]
      constructor
      · intro hfalse
        exact absurd hfalse (by simp)
      · rintro ⟨ha, _, _⟩
        have := (hasFreeVC_standard_iff vcsPerVnet ou (invc / vcsPerVnet)).mpr (ha rfl)
        rw [hfv] at this
        exact absurd this (by simp)
    | true =>
      have hsend : send_allowed false ordered vcsPerVnet ou iu invc outport (-1) =
          (if ordered then
            !((List.range vcsPerVnet).any (fun off =>
              iu.needStageSA (invc / vcsPerVnet * vcsPerVnet + off) &&
                iu.outportOf (invc / vcsPerVnet * vcsPerVnet + off) == outport &&
                decide (iu.enqueueTime (invc / vcsPerVnet * vcsPerVnet + off) <
                  iu.enqueueTime invc)))
          else true) := by
        simp [send_allowed, hfv]
      rw [hsend]
      have ha : ∃ off < vcsPerVnet,
          ou.vcStates.getD (invc / vcsPerVnet * vcsPerVnet + off) .ACTIVE = .IDLE :=
        (hasFreeVC_standard_iff vcsPerVnet ou (invc / vcsPerVnet)).mp hfv
      cases ordered with
      | false =>
        exact iff_of_true (by simp)
          ⟨fun _ => ha, fun hc => absurd hc (by omega), fun hc => absurd hc (by simp)⟩
      | true =>
        rw [if_pos rfl, Bool.not_eq_true', ← Bool.not_eq_true,
          ordered_conflict_iff iu vcsPerVnet invc outport]
        constructor
        · intro hnot
          exact ⟨fun _ => ha, fun hc => absurd hc (by omega), fun _ => hnot⟩
        · rintro ⟨_, _, hc⟩
          exact hc rfl
  · -- outvc ≥ 0
    have hge : 0 ≤ outvc := by omega
    have hne : (outvc == -1) = false := by
      simp only [beq_eq_false_iff_ne, ne_eq]
      omega
    have hvac : (outvc = -1) = False := by
      simp only [eq_iff_iff, iff_false]
      omega
    cases hcr : hasCredit ou outvc.toNat with
    | false =>
      have hsend : send_allowed false ordered vcsPerVnet ou iu invc outport outvc = false := by
        simp [send_allowed, hne, hcr]
      rw [hsend]
      constructor
      · intro hfalse
        exact absurd hfalse (by simp)
      · rintro ⟨_, hb, _⟩
        have : hasCredit ou outvc.toNat = true := by
          simpa [hasCredit] using hb hge
        rw [hcr] at this
        exact absurd this (by simp)
    | true =>
      have hsend : send_allowed false ordered vcsPerVnet ou iu invc outport outvc =
          (if ordered then
            !((List.range vcsPerVnet).any (fun off =>
              iu.needStageSA (invc / vcsPerVnet * vcsPerVnet + off) &&
                iu.outportOf (invc / vcsPerVnet * vcsPerVnet + off) == outport &&
                decide (iu.enqueueTime (invc / vcsPerVnet * vcsPerVnet + off) <
                  iu.enqueueTime invc)))
          else true) := by
        simp [send_allowed, hne, hcr]
      rw [hsend]
      have hb : 0 < ou.creditCounts.getD outvc.toNat 0 := by
        simpa [hasCredit] using hcr
      cases ordered with
      | false =>
        exact iff_of_true (by simp)
          ⟨fun hc => absurd hc (by omega), fun _ => hb, fun hc => absurd hc (by simp)⟩
      | true =>
        rw [if_pos rfl, Bool.not_eq_true', ← Bool.not_eq_true,
          ordered_conflict_iff iu vcsPerVnet invc outport]
        constructor
        · intro hnot
          exact ⟨fun hc => absurd hc (by omega), fun _ => hb, fun _ => hnot⟩
        · rintro ⟨_, _, hc⟩
          exact hc rfl

/-- C2 witness: a HEAD flit (outvc = -1) on an ordered vnet with a free
downstream VC and no competing SA-ready flit is allowed to send. -/
theorem send_allowed_standard_iff_witness :
    send_allowed false true 2 ⟨[.IDLE, .ACTIVE], [1, 0]⟩
      ⟨fun _ => false, fun _ => 0, fun _ => 0⟩ 1 0 (-1) = true :=
  (send_allowed_standard_iff true 2 ⟨[.IDLE, .ACTIVE], [1, 0]⟩
    ⟨fun _ => false, fun _ => 0, fun _ => 0⟩ 1 0 (-1) (by decide)).mpr
    ⟨fun _ => ⟨0, by decide, by decide⟩,
     fun h => absurd h (by decide),
     fun _ => by
      rintro ⟨off, hoff, hne, hsa, hrest⟩
      simp at hsa⟩

/-- C4 witness: the DOWN case at a concrete router with one child whose
interval [2, 5) contains tin(dest) = 3. -/
theorem escape_route_cases_witness :
    ∃ c ∈ [(⟨1, 2, 5⟩ : ChildInfo)],
      ((3 : Int) ≥ c.tin ∧ (3 : Int) < c.tout) ∧
      outportEscapeVC 0 [⟨1, 2, 5⟩] (-1) (fun _ => 3) (fun _ => true) 0
        [1] [[[5]]] ⟨0, [5], 7⟩ = some c.outport :=
  (escape_route_cases 0 [⟨1, 2, 5⟩] (-1) (fun _ => 3) (fun _ => true) 0
    [1] [[[5]]] ⟨0, [5], 7⟩ (by decide)).1 ⟨⟨1, 2, 5⟩, by decide, by decide, by decide⟩

theorem list_set_eq_self_of_getD {α : Type} (l : List α) (i : Nat) (x : α)
    (h : l.getD i x = x) : l.set i x = l := by
  induction l generalizing i with
  | nil => simp
  | cons a t ih =>
    cases i with
    | zero =>
      simp only [List.getD_cons_zero] at h
      simp [h]
    | succ j =>
      simp only [List.getD_cons_succ] at h
      simp [ih j h]

theorem thaw_vc_eq (iu : InputSpin) (vc : Int) :
    thaw_vc iu vc =
      if vc < 0 ∨ vc ≥ Int.ofNat iu.vcFrozen.length then iu
      else if vc ≥ Int.ofNat iu.stallCount.length then
        { iu with vcFrozen := iu.vcFrozen.set vc.toNat false }
      else ⟨iu.vcFrozen.set vc.toNat false, iu.stallCount.set vc.toNat 0⟩ := by
  obtain ⟨fr, st⟩ := iu
  unfold thaw_vc reset_stall
  dsimp only
  by_cases h1 : vc < 0 ∨ vc ≥ Int.ofNat fr.length
  · rw [if_pos h1, if_pos h1]
  · rw [if_neg h1, if_neg h1]
    by_cases h2 : vc ≥ Int.ofNat st.length
    · rw [if_pos (Or.inr h2), if_pos h2]
    · rw [if_neg (by push_neg at h1 ⊢; exact ⟨h1.1, by omega⟩), if_neg h2]

/-- C9 counterexample: VC 0 is not frozen but has stall count 3; thaw_vc
still changes the InputUnit state (it zeroes the stall count), so repeated
thaw of an un-frozen VC is not a no-op on all per-VC state. -/
theorem thaw_unfrozen_counterexample :
    (⟨[false], [3]⟩ : InputSpin).vcFrozen.getD 0 true = false ∧
    thaw_vc ⟨[false], [3]⟩ 0 ≠ (⟨[false], [3]⟩ : InputSpin) ∧
    thaw_vc ⟨[false], [3]⟩ 0 = (⟨[false], [0]⟩ : InputSpin) := by
  decide

/-- C9 (amended): thaw_vc and reset_stall are both idempotent; thawing an
un-frozen VC leaves the frozen flags unchanged but zeroes that VC's stall
counter, hence is a no-op exactly on states whose stall count is already
zero; reset_stall is idempotent as claimed. -/
theorem thaw_reset_idempotent (iu : InputSpin) (vc : Int) :
    thaw_vc (thaw_vc iu vc) vc = thaw_vc iu vc ∧
    reset_stall (reset_stall iu vc) vc = reset_stall iu vc ∧
    (iu.vcFrozen.getD vc.toNat false = false →
      (thaw_vc iu vc).vcFrozen = iu.vcFrozen) ∧
    (iu.vcFrozen.getD vc.toNat false = false →
      iu.stallCount.getD vc.toNat 0 = 0 → thaw_vc iu vc = iu) := by
  obtain ⟨fr, st⟩ := iu
  refine ⟨?_, ?_, ?_, ?_⟩
  · by_cases h1 : vc < 0 ∨ vc ≥ Int.ofNat fr.length
    · have e : thaw_vc ⟨fr, st⟩ vc = (⟨fr, st⟩ : InputSpin) := by
        rw [thaw_vc_eq]
        dsimp only
        rw [if_pos h1]
      rw [e]
      exact e
    · by_cases h2 : vc ≥ Int.ofNat st.length
      · have e : thaw_vc ⟨fr, st⟩ vc = (⟨fr.set vc.toNat false, st⟩ : InputSpin) := by
          rw [thaw_vc_eq]
          dsimp only
          rw [if_neg h1, if_pos h2]
        rw [e, thaw_vc_eq]
        dsimp only
        rw [List.length_set, if_neg h1, if_pos h2, List.set_set]
      · have e : thaw_vc ⟨fr, st⟩ vc =
            (⟨fr.set vc.toNat false, st.set vc.toNat 0⟩ : InputSpin) := by
          rw [thaw_vc_eq]
          dsimp only
          rw [if_neg h1, if_neg h2]
        rw [e, thaw_vc_eq]
        dsimp only
        rw [List.length_set, List.length_set, if_neg h1, if_neg h2,
          List.set_set, List.set_set]
  · unfold reset_stall
    dsimp only
    by_cases h2 : vc < 0 ∨ vc ≥ Int.ofNat st.length
    · rw [if_pos h2, if_pos h2]
    · rw [if_neg h2]
      dsimp only
      rw [List.length_set, if_neg h2, List.set_set]
  · intro hfr
    rw [thaw_vc_eq]
    dsimp only
    have hset : fr.set vc.toNat false = fr :=
      list_set_eq_self_of_getD fr vc.toNat false hfr
    by_cases h1 : vc < 0 ∨ vc ≥ Int.ofNat fr.length
    · rw [if_pos h1]
    · rw [if_neg h1]
      by_cases h2 : vc ≥ Int.ofNat st.length
      · rw [if_pos h2]
        exact hset
      · rw [if_neg h2]
        exact hset
  · intro hfr hst
    rw [thaw_vc_eq]
    dsimp only
    have hsetf : fr.set vc.toNat false = fr :=
      list_set_eq_self_of_getD fr vc.toNat false hfr
    have hsets : st.set vc.toNat 0 = st :=
      list_set_eq_self_of_getD st vc.toNat 0 hst
    by_cases h1 : vc < 0 ∨ vc ≥ Int.ofNat fr.length
    · rw [if_pos h1]
    · rw [if_neg h1]
      by_cases h2 : vc ≥ Int.ofNat st.length
      · rw [if_pos h2, hsetf]
      · rw [if_neg h2, hsetf, hsets]

/-- C9 witness: the amended statement at a concrete un-frozen VC with
zero stall count, where thaw_vc is indeed a no-op. -/
theorem thaw_reset_idempotent_witness :
    thaw_vc ⟨[false], [0]⟩ 0 = (⟨[false], [0]⟩ : InputSpin) :=
  (thaw_reset_idempotent ⟨[false], [0]⟩ 0).2.2.2 (by decide) (by decide)

theorem srcIdPartialMatch_iff (b : SourceIdBuf) (s : Int) :
    srcIdPartialMatch b s = true ↔ (b.valid = true ∧ b.sourceId = s) := by
  unfold srcIdPartialMatch
  by_cases hv : b.valid = true
  · simp [hv]
  · simp [hv]

/-- C10: a KILL_MOVE is deleted, never forwarded, at the router whose id
equals its source id (so it traverses the discovered cycle at most once);
at every other router it is always forwarded along its path — the path
front becomes its outport and is popped — with must_send true exactly
when the flit's source id matches the router's latched source-id buffer
(buffer valid with an equal source id) and false otherwise. -/
theorem kill_move_forwarding (routerId mId : Nat) (sp : SpinState)
    (incCtrPtr : SpinState → SpinState) (sendTime : Nat) (f : CtrlFlit)
    (_hpath : f.path ≠ []) :
    (f.sourceId = Int.ofNat routerId →
      killMoveAtRouter routerId mId sp incCtrPtr sendTime f = .deleted) ∧
    (f.sourceId ≠ Int.ofNat routerId →
      ∃ sp1 f1,
        killMoveAtRouter routerId mId sp incCtrPtr sendTime f =
          .forwarded sp1 f1 ∧
        f1.outport = f.path.headD (-1) ∧
        f1.path = f.path.tail ∧
        (f1.mustSend = true ↔
          (sp.srcIdBuf.valid = true ∧ sp.srcIdBuf.sourceId = f.sourceId))) := by
  constructor
  · intro hsrc
    unfold killMoveAtRouter
    rw [if_pos hsrc]
  · intro hsrc
    unfold killMoveAtRouter
    rw [if_neg hsrc]
    cases hm : srcIdPartialMatch sp.srcIdBuf f.sourceId with
    | true =>
      rw [if_pos rfl]
      refine ⟨_, _, rfl, rfl, rfl, ?_⟩
      simpa using (srcIdPartialMatch_iff sp.srcIdBuf f.sourceId).mp hm
    | false =>
      rw [if_neg (by simp)]
      refine ⟨_, _, rfl, rfl, rfl, ?_⟩
      constructor
      · intro hfalse
        exact absurd hfalse (by simp)
      · intro hmatch
        have := (srcIdPartialMatch_iff sp.srcIdBuf f.sourceId).mpr hmatch
        rw [hm] at this
        exact absurd this (by simp)

/-- C10 witness: a concrete KILL_MOVE with source id 1 at router 0 (an
invalid latched buffer) is forwarded with must_send false, the path front
as its outport, and the path popped. -/
theorem kill_move_forwarding_witness :
    ∃ sp1 f1,
      killMoveAtRouter 0 0 ⟨.off, 0, 0, 0, ⟨-1, -1, false⟩, false, false, [], []⟩
          id 9 ⟨0, 1, 0, 0, 0, [2, 3], false, -1, 0, 0⟩ =
        .forwarded sp1 f1 ∧
      f1.outport = ([2, 3] : List Int).headD (-1) ∧
      f1.path = ([2, 3] : List Int).tail ∧
      (f1.mustSend = true ↔
        ((false : Bool) = true ∧ (-1 : Int) = 1)) :=
  (kill_move_forwarding 0 0 ⟨.off, 0, 0, 0, ⟨-1, -1, false⟩, false, false, [], []⟩
    id 9 ⟨0, 1, 0, 0, 0, [2, 3], false, -1, 0, 0⟩ (by decide)).2 (by decide)

theorem findMoveVCAux_ne_iff (vcsPerVnet vnet : Nat) (vcs : List SpinVC)
    (outDirs : List String) (pathTop : Int) (rem : Nat) :
    ∀ off : Nat,
      (findMoveVCAux vcsPerVnet vnet vcs outDirs pathTop off rem ≠ -1) ↔
      ∃ d < rem, moveScanMatch vcsPerVnet vnet vcs pathTop (off + d) ∧
        ∀ k ≤ d, moveScanClean vcsPerVnet vnet vcs outDirs (off + k) := by
  induction rem with
  | zero =>
    intro off
    simp [findMoveVCAux]
  | succ rem ih =>
    intro off
    simp only [findMoveVCAux]
    by_cases h1 : (vnetVC vcsPerVnet vnet vcs off).vstate = .ACTIVE
    · rw [if_neg (fun hne => hne h1)]
      by_cases h2 :
          outDirs.getD (vnetVC vcsPerVnet vnet vcs off).outportRt.toNat "" = "Local"
      · rw [if_pos h2]
        refine iff_of_false (by simp) ?_
        rintro ⟨d, _, _, hc⟩
        have hclean0 := hc 0 (Nat.zero_le d)
        rw [Nat.add_zero] at hclean0
        exact hclean0.2 h2
      · rw [if_neg h2]
        by_cases h3 : (vnetVC vcsPerVnet vnet vcs off).outportRt = pathTop ∧
            (vnetVC vcsPerVnet vnet vcs off).containsHT = true
        · rw [if_pos h3]
          refine iff_of_true ?_ ?_
          · intro hc
            have hnn : (0 : Int) ≤ Int.ofNat (vnet * vcsPerVnet + off) :=
              Int.ofNat_nonneg _
            rw [hc] at hnn
            exact absurd hnn (by decide)
          refine ⟨0, by omega, by rw [Nat.add_zero]; exact h3, ?_⟩
          intro k hk
          have hk0 : k = 0 := Nat.le_zero.mp hk
          subst hk0
          rw [Nat.add_zero]
          exact ⟨h1, h2⟩
        · rw [if_neg h3, ih (off + 1)]
          constructor
          · rintro ⟨d, hd, hm, hc⟩
            refine ⟨d + 1, by omega, ?_, ?_⟩
            · have e1 : off + (d + 1) = off + 1 + d := by omega
              rw [e1]
              exact hm
            · intro k hk
              cases k with
              | zero =>
                rw [Nat.add_zero]
                exact ⟨h1, h2⟩
              | succ j =>
                have e2 : off + (j + 1) = off + 1 + j := by omega
                rw [e2]
                exact hc j (by omega)
          · rintro ⟨d, hd, hm, hc⟩
            cases d with
            | zero =>
              exfalso
              rw [Nat.add_zero] at hm
              exact h3 hm
            | succ e =>
              refine ⟨e, by omega, ?_, ?_⟩
              · have e1 : off + 1 + e = off + (e + 1) := by omega
                rw [e1]
                exact hm
              · intro k hk
                have e2 : off + 1 + k = off + (k + 1) := by omega
                rw [e2]
                exact hc (k + 1) (by omega)
    · rw [if_pos h1]
      refine iff_of_false (by simp) ?_
      rintro ⟨d, _, _, hc⟩
      have hclean0 := hc 0 (Nat.zero_le d)
      rw [Nat.add_zero] at hclean0
      exact h1 hclean0.1

theorem find_move_vc_ne_iff (vcsPerVnet : Nat) (vcs : List SpinVC)
    (outDirs : List String) (vnet : Nat) (pathTop : Int) :
    (find_move_vc vcsPerVnet vcs outDirs vnet pathTop ≠ -1) ↔
    ∃ d < vcsPerVnet, moveScanMatch vcsPerVnet vnet vcs pathTop d ∧
      ∀ k ≤ d, moveScanClean vcsPerVnet vnet vcs outDirs k := by
  unfold find_move_vc
  rw [findMoveVCAux_ne_iff vcsPerVnet vnet vcs outDirs pathTop vcsPerVnet 0]
  simp

/-- C6 counterexample: a MOVE at an intermediate router whose gates all
pass (counter off, no registry entry), and whose vnet has a VC with the
path top as its outport containing both HEAD and TAIL (VC offset 1) — yet
the MOVE is dropped, because the scan aborts at the IDLE VC at offset 0.
This contradicts the claim that the MOVE is accepted exactly when some
such VC exists. -/
theorem move_at_intermediate_counterexample :
    (∃ off < 2,
      (vnetVC 2 0 [⟨.IDLE, -1, false⟩, ⟨.ACTIVE, 1, true⟩] off).outportRt =
        peekPathTop ⟨0, 9, 0, 0, 0, [1, 0], false, -1, 0, 0⟩ ∧
      (vnetVC 2 0 [⟨.IDLE, -1, false⟩, ⟨.ACTIVE, 1, true⟩] off).containsHT = true) ∧
    (⟨.off, 0, 0, 0, ⟨-1, -1, false⟩, false, false, [],
        [⟨[false, false], [0, 0]⟩]⟩ : SpinState).counterState = .off ∧
    checkOutportEntryInMoveRegistry [] (1 : Int) = false ∧
    moveAtIntermediate 2 0 [⟨.IDLE, -1, false⟩, ⟨.ACTIVE, 1, true⟩]
      ["Local", "East"]
      ⟨.off, 0, 0, 0, ⟨-1, -1, false⟩, false, false, [], [⟨[false, false], [0, 0]⟩]⟩
      5 0 7 ⟨0, 9, 0, 0, 0, [1, 0], false, -1, 0, 0⟩ = none := by
  decide

/-- C6 (amended): a MOVE at an intermediate router is processed only when
the counter state is deadlock_detection, off or frozen (when frozen, only
with a source id matching the latched buffer) and no registry entry holds
the move's next outport; it is then accepted exactly when the ascending
scan of the vnet's VCs reaches, through VCs that are all ACTIVE with
non-Local outports, a VC whose outport equals path.front() and which
contains both HEAD and TAIL (an IDLE or Local-outport VC earlier in the
vnet drops the MOVE even if such a VC exists later); on acceptance the
move_bit is set, the source-id buffer latched, a registry entry created
and the counter frozen with a 1-cycle threshold, and the MOVE forwarded
with the path top popped as its outport. -/
theorem move_at_intermediate_characterization
    (vcsPerVnet mId : Nat) (vcs : List SpinVC) (outDirs : List String)
    (sp : SpinState) (curCycle latencyTicks sendTime : Nat) (f : CtrlFlit) :
    (¬(sp.counterState = .deadlock_detection ∨ sp.counterState = .off ∨
        sp.counterState = .frozen) →
      moveAtIntermediate vcsPerVnet mId vcs outDirs sp curCycle latencyTicks
        sendTime f = none) ∧
    (sp.counterState = .frozen →
      srcIdPartialMatch sp.srcIdBuf f.sourceId = false →
      moveAtIntermediate vcsPerVnet mId vcs outDirs sp curCycle latencyTicks
        sendTime f = none) ∧
    (checkOutportEntryInMoveRegistry sp.moveRegistry (peekPathTop f) = true →
      moveAtIntermediate vcsPerVnet mId vcs outDirs sp curCycle latencyTicks
        sendTime f = none) ∧
    ((sp.counterState = .deadlock_detection ∨ sp.counterState = .off ∨
        sp.counterState = .frozen) →
     (sp.counterState = .frozen →
        srcIdPartialMatch sp.srcIdBuf f.sourceId = true) →
     checkOutportEntryInMoveRegistry sp.moveRegistry (peekPathTop f) = false →
     ((moveAtIntermediate vcsPerVnet mId vcs outDirs sp curCycle latencyTicks
          sendTime f ≠ none ↔
        ∃ d < vcsPerVnet,
          moveScanMatch vcsPerVnet f.vnet vcs (peekPathTop f) d ∧
          ∀ k ≤ d, moveScanClean vcsPerVnet f.vnet vcs outDirs k) ∧
      (find_move_vc vcsPerVnet vcs outDirs f.vnet (peekPathTop f) ≠ -1 →
        ∃ sp1 f1,
          moveAtIntermediate vcsPerVnet mId vcs outDirs sp curCycle
            latencyTicks sendTime f = some (sp1, f1) ∧
          sp1.moveBit = true ∧
          sp1.srcIdBuf = ⟨f.sourceId, f.fid, true⟩ ∧
          sp1.moveRegistry = sp.moveRegistry ++
            [⟨mId, find_move_vc vcsPerVnet vcs outDirs f.vnet (peekPathTop f),
              peekPathTop f, -1, false, 0⟩] ∧
          sp1.counterState = .frozen ∧
          sp1.counterThreshCycle = curCycle + 1 ∧
          f1.path = f.path.tail ∧
          f1.outport = peekPathTop f))) := by
  refine ⟨?_, ?_, ?_, ?_⟩
  · intro hgate
    unfold moveAtIntermediate
    rw [if_pos hgate]
  · intro hfr hmatch
    unfold moveAtIntermediate
    rw [if_neg (not_not_intro (Or.inr (Or.inr hfr))), if_pos ⟨hfr, hmatch⟩]
  · intro hreg
    unfold moveAtIntermediate
    by_cases h1 : ¬(sp.counterState = .deadlock_detection ∨
        sp.counterState = .off ∨ sp.counterState = .frozen)
    · rw [if_pos h1]
    · rw [if_neg h1]
      by_cases h2 : sp.counterState = .frozen ∧
          srcIdPartialMatch sp.srcIdBuf f.sourceId = false
      · rw [if_pos h2]
      · rw [if_neg h2, if_pos hreg]
  · intro hgate hfrmatch hreg
    have heval : moveAtIntermediate vcsPerVnet mId vcs outDirs sp curCycle
        latencyTicks sendTime f =
        (if find_move_vc vcsPerVnet vcs outDirs f.vnet (peekPathTop f) = -1
         then none
         else some (moveAcceptState vcsPerVnet mId vcs outDirs sp curCycle f,
           forward_move latencyTicks sendTime f)) := by
      unfold moveAtIntermediate
      rw [if_neg (not_not_intro hgate),
        if_neg (fun hc => by rw [hfrmatch hc.1] at hc; exact absurd hc.2 (by simp)),
        if_neg (by simp [hreg])]
    constructor
    · rw [heval, ← find_move_vc_ne_iff vcsPerVnet vcs outDirs f.vnet (peekPathTop f)]
      by_cases hm : find_move_vc vcsPerVnet vcs outDirs f.vnet (peekPathTop f) = -1
      · rw [if_pos hm]
        simp [hm]
      · rw [if_neg hm]
        simp [hm]
    · intro hm
      rw [heval, if_neg hm]
      refine ⟨moveAcceptState vcsPerVnet mId vcs outDirs sp curCycle f,
        forward_move latencyTicks sendTime f, rfl, ?_, ?_, ?_, ?_, ?_, ?_, ?_⟩
      · rfl
      · rfl
      · rfl
      · rfl
      · rfl
      · rfl
      · rfl

/-- C6 witness: the acceptance characterization applied at a concrete
intermediate router (counter off, empty registry) whose vnet VCs are all
ACTIVE with non-Local outports and whose VC offset 0 matches the path
top. -/
theorem move_at_intermediate_characterization_witness :
    moveAtIntermediate 2 0 [⟨.ACTIVE, 1, true⟩, ⟨.ACTIVE, 0, false⟩]
        ["East", "West"]
        ⟨.off, 0, 0, 0, ⟨-1, -1, false⟩, false, false, [],
          [⟨[false, false], [0, 0]⟩]⟩
        5 0 7 ⟨4, 9, 0, 0, 0, [1, 2], false, -1, 0, 0⟩ ≠ none ↔
      (∃ d < 2, moveScanMatch 2 0 [⟨.ACTIVE, 1, true⟩, ⟨.ACTIVE, 0, false⟩] 1 d ∧
        ∀ k ≤ d, moveScanClean 2 0 [⟨.ACTIVE, 1, true⟩, ⟨.ACTIVE, 0, false⟩]
          ["East", "West"] k) :=
  ((move_at_intermediate_characterization 2 0
      [⟨.ACTIVE, 1, true⟩, ⟨.ACTIVE, 0, false⟩] ["East", "West"]
      ⟨.off, 0, 0, 0, ⟨-1, -1, false⟩, false, false, [],
        [⟨[false, false], [0, 0]⟩]⟩
      5 0 7 ⟨4, 9, 0, 0, 0, [1, 2], false, -1, 0, 0⟩).2.2.2
    (Or.inr (Or.inl rfl)) (fun h => absurd h (by decide)) (by decide)).1

theorem getD_set_self {α : Type} (l : List α) (i : Nat) (a d : α)
    (h : i < l.length) : (l.set i a).getD i d = a := by
  rw [List.getD_eq_getElem?_getD, List.getElem?_set_self (by simpa using h)]
  rfl

theorem getD_set_ne {α : Type} (l : List α) (i j : Nat) (a d : α)
    (h : i ≠ j) : (l.set i a).getD j d = l.getD j d := by
  rw [List.getD_eq_getElem?_getD, List.getElem?_set_ne h,
    ← List.getD_eq_getElem?_getD]

theorem getD_replicate_false (n i : Nat) :
    (List.replicate n false).getD i false = false := by
  rw [List.getD_eq_getElem?_getD, List.getElem?_replicate]
  by_cases h : i < n <;> simp [h]

theorem cfvAux_all_clean (vcsPerVnet vnet : Nat) (vcs : List SpinVC)
    (outDirs : List String) (rem : Nat) :
    ∀ (off : Nat) (fv : List Bool) (any : Bool),
      (∀ k < rem, moveScanClean vcsPerVnet vnet vcs outDirs (off + k)) →
      (∀ k < rem, (vnetVC vcsPerVnet vnet vcs (off + k)).outportRt.toNat < fv.length) →
      ∃ fv2, cfvAux vcsPerVnet vnet vcs outDirs off rem fv any =
          some ((any || decide (0 < rem)), fv2) ∧
        fv2.length = fv.length ∧
        (∀ op : Nat, fv2.getD op false = true ↔
          (fv.getD op false = true ∨
           ∃ k < rem, (vnetVC vcsPerVnet vnet vcs (off + k)).outportRt.toNat = op)) := by
  induction rem with
  | zero =>
    intro off fv any _ _
    refine ⟨fv, by simp [cfvAux], rfl, ?_⟩
    intro op
    simp
  | succ rem ih =>
    intro off fv any hclean hrange
    have hc0 := hclean 0 (by omega)
    rw [Nat.add_zero] at hc0
    have hr0 := hrange 0 (by omega)
    rw [Nat.add_zero] at hr0
    simp only [cfvAux]
    rw [if_neg (fun hne => hne hc0.1), if_neg hc0.2]
    obtain ⟨fv2, heq, hlen, hiff⟩ :=
      ih (off + 1) (fv.set (vnetVC vcsPerVnet vnet vcs off).outportRt.toNat true) true
        (fun k hk => by
          have hx := hclean (k + 1) (by omega)
          rwa [show off + (k + 1) = off + 1 + k by omega] at hx)
        (fun k hk => by
          have hx := hrange (k + 1) (by omega)
          rw [show off + (k + 1) = off + 1 + k by omega] at hx
          simpa [List.length_set] using hx)
    refine ⟨fv2, ?_, by simpa [List.length_set] using hlen, ?_⟩
    · rw [heq]
      simp
    · intro op
      rw [hiff op]
      constructor
      · rintro (hset | ⟨k, hk, hkop⟩)
        · by_cases hop : (vnetVC vcsPerVnet vnet vcs off).outportRt.toNat = op
          · right
            exact ⟨0, by omega, by rwa [Nat.add_zero]⟩
          · left
            rwa [getD_set_ne fv _ _ true false hop] at hset
        · right
          exact ⟨k + 1, by omega,
            by rwa [show off + (k + 1) = off + 1 + k by omega]⟩
      · rintro (hfv | ⟨k, hk, hkop⟩)
        · by_cases hop : (vnetVC vcsPerVnet vnet vcs off).outportRt.toNat = op
          · left
            rw [← hop]
            exact getD_set_self fv _ true false hr0
          · left
            rwa [getD_set_ne fv _ _ true false hop]
        · cases k with
          | zero =>
            left
            rw [Nat.add_zero] at hkop
            rw [← hkop]
            exact getD_set_self fv _ true false hr0
          | succ j =>
            right
            exact ⟨j, by omega,
              by rwa [show off + 1 + j = off + (j + 1) by omega]⟩

theorem cfvAux_aborts (vcsPerVnet vnet : Nat) (vcs : List SpinVC)
    (outDirs : List String) (rem : Nat) :
    ∀ (off : Nat) (fv : List Bool) (any : Bool),
      (∃ k < rem, ¬ moveScanClean vcsPerVnet vnet vcs outDirs (off + k)) →
      cfvAux vcsPerVnet vnet vcs outDirs off rem fv any = none := by
  induction rem with
  | zero =>
    rintro off fv any ⟨k, hk, _⟩
    omega
  | succ rem ih =>
    rintro off fv any ⟨k, hk, hbad⟩
    simp only [cfvAux]
    by_cases h1 : (vnetVC vcsPerVnet vnet vcs off).vstate = .ACTIVE
    · rw [if_neg (fun hne => hne h1)]
      by_cases h2 :
          outDirs.getD (vnetVC vcsPerVnet vnet vcs off).outportRt.toNat "" = "Local"
      · rw [if_pos h2]
      · rw [if_neg h2]
        apply ih
        cases k with
        | zero =>
          exfalso
          rw [Nat.add_zero] at hbad
          exact hbad ⟨h1, h2⟩
        | succ j =>
          exact ⟨j, by omega,
            by rwa [show off + 1 + j = off + (j + 1) by omega]⟩
    · rw [if_pos h1]

theorem create_fork_vector_all_clean (numOutports vcsPerVnet : Nat)
    (vcs : List SpinVC) (outDirs : List String) (vnet : Nat)
    (hv : 0 < vcsPerVnet)
    (hclean : ∀ k < vcsPerVnet, moveScanClean vcsPerVnet vnet vcs outDirs k)
    (hrange : ∀ k < vcsPerVnet,
      (vnetVC vcsPerVnet vnet vcs k).outportRt.toNat < numOutports) :
    ∃ fv2, create_fork_vector numOutports vcsPerVnet vcs outDirs vnet = (true, fv2) ∧
      (∀ op : Nat, fv2.getD op false = true ↔
        ∃ k < vcsPerVnet, (vnetVC vcsPerVnet vnet vcs k).outportRt.toNat = op) := by
  obtain ⟨fv2, heq, _, hiff⟩ :=
    cfvAux_all_clean vcsPerVnet vnet vcs outDirs vcsPerVnet 0
      (List.replicate numOutports false) false
      (fun k hk => by simpa using hclean k hk)
      (fun k hk => by simpa using hrange k hk)
  refine ⟨fv2, ?_, ?_⟩
  · unfold create_fork_vector
    rw [heq]
    simp [hv]
  · intro op
    rw [hiff op]
    simp [getD_replicate_false]

theorem create_fork_vector_aborts (numOutports vcsPerVnet : Nat)
    (vcs : List SpinVC) (outDirs : List String) (vnet : Nat)
    (hbad : ∃ k < vcsPerVnet, ¬ moveScanClean vcsPerVnet vnet vcs outDirs k) :
    create_fork_vector numOutports vcsPerVnet vcs outDirs vnet =
      (false, List.replicate numOutports false) := by
  unfold create_fork_vector
  rw [cfvAux_aborts vcsPerVnet vnet vcs outDirs vcsPerVnet 0
    (List.replicate numOutports false) false (by simpa using hbad)]
  rfl

theorem fork_probes_paths (numOutports routerId : Nat) (f : CtrlFlit)
    (fv : List Bool) (lat send : Nat) :
    (fork_probes numOutports routerId f fv lat send).map CtrlFlit.path =
      ((List.range numOutports).filter (fun op => fv.getD op false)).map
        (fun op => f.path ++ [Int.ofNat op]) := by
  unfold fork_probes
  rw [List.map_map]
  rfl

/-- C5: a PROBE at an intermediate router is dropped when its path length
exceeds the configured spin_max_turn_capacity; otherwise, when every VC of
its vnet at the receiving inport is ACTIVE with a non-Local outport (the
outports indexing into the fork vector), exactly one probe copy is forked
per distinct outport among those VCs — the forked paths are pairwise
distinct and are exactly the original path with one such outport appended;
and when some VC of the vnet is IDLE or has a Local outport, the probe is
dropped and no copy is forked. -/
theorem probe_fork_characterization
    (numOutports vcsPerVnet maxTurnCap routerId : Nat)
    (vcs : List SpinVC) (outDirs : List String) (latencyTicks sendTime : Nat)
    (f : CtrlFlit) :
    (f.path.length > maxTurnCap →
      probeAtIntermediate numOutports vcsPerVnet maxTurnCap routerId vcs outDirs
        latencyTicks sendTime f = none) ∧
    (f.path.length ≤ maxTurnCap → 0 < vcsPerVnet →
      (∀ k < vcsPerVnet, moveScanClean vcsPerVnet f.vnet vcs outDirs k) →
      (∀ k < vcsPerVnet,
        (vnetVC vcsPerVnet f.vnet vcs k).outportRt.toNat < numOutports) →
      ∃ copies,
        probeAtIntermediate numOutports vcsPerVnet maxTurnCap routerId vcs
          outDirs latencyTicks sendTime f = some copies ∧
        (∀ op : Nat, (f.path ++ [Int.ofNat op]) ∈ copies.map CtrlFlit.path ↔
          ∃ k < vcsPerVnet, (vnetVC vcsPerVnet f.vnet vcs k).outportRt.toNat = op) ∧
        (copies.map CtrlFlit.path).Nodup ∧
        (∀ q ∈ copies.map CtrlFlit.path, ∃ op : Nat, q = f.path ++ [Int.ofNat op])) ∧
    (f.path.length ≤ maxTurnCap →
      (∃ k < vcsPerVnet, (vnetVC vcsPerVnet f.vnet vcs k).vstate = .IDLE ∨
        outDirs.getD (vnetVC vcsPerVnet f.vnet vcs k).outportRt.toNat "" = "Local") →
      probeAtIntermediate numOutports vcsPerVnet maxTurnCap routerId vcs outDirs
        latencyTicks sendTime f = none) := by
  refine ⟨?_, ?_, ?_⟩
  · intro hlen
    unfold probeAtIntermediate
    rw [if_pos hlen]
  · intro hlen hv hclean hrange
    obtain ⟨fv2, heqc, hiff⟩ :=
      create_fork_vector_all_clean numOutports vcsPerVnet vcs outDirs f.vnet
        hv hclean hrange
    refine ⟨fork_probes numOutports routerId f fv2 latencyTicks sendTime,
      ?_, ?_, ?_, ?_⟩
    · unfold probeAtIntermediate
      rw [if_neg (by omega), heqc]
      rfl
    · intro op
      rw [fork_probes_paths, List.mem_map]
      constructor
      · rintro ⟨op2, hop2, heq2⟩
        have hopeq : op2 = op := by
          have hx := List.append_cancel_left heq2
          simpa using hx
        subst hopeq
        rw [List.mem_filter] at hop2
        exact (hiff op2).mp hop2.2
      · intro hex
        refine ⟨op, ?_, rfl⟩
        rw [List.mem_filter]
        obtain ⟨k, hk, hkop⟩ := hex
        exact ⟨List.mem_range.mpr (hkop ▸ hrange k hk),
          (hiff op).mpr ⟨k, hk, hkop⟩⟩
    · rw [fork_probes_paths]
      refine ((List.nodup_range numOutports).filter _).map ?_
      intro a b hab
      have hx := List.append_cancel_left hab
      simpa using hx
    · intro q hq
      rw [fork_probes_paths, List.mem_map] at hq
      obtain ⟨op, _, hqeq⟩ := hq
      exact ⟨op, hqeq.symm⟩
  · intro hlen hbad
    have hnc : ∃ k < vcsPerVnet,
        ¬ moveScanClean vcsPerVnet f.vnet vcs outDirs k := by
      obtain ⟨k, hk, hb⟩ := hbad
      refine ⟨k, hk, fun hcl => ?_⟩
      rcases hb with h | h
      · exact absurd hcl.1 (by rw [h]; simp)
      · exact hcl.2 h
    unfold probeAtIntermediate
    rw [if_neg (by omega),
      create_fork_vector_aborts numOutports vcsPerVnet vcs outDirs f.vnet hnc]
    rfl

/-- C5 witness: a probe within the turn capacity, at an inport whose vnet
VCs are all ACTIVE on non-Local outports (both pointing at outport 1),
forks exactly one copy with outport 1 appended to the path. -/
theorem probe_fork_characterization_witness :
    ∃ copies,
      probeAtIntermediate 2 2 3 5 [⟨.ACTIVE, 1, true⟩, ⟨.ACTIVE, 1, false⟩]
        ["East", "West"] 0 7 ⟨4, 9, 0, 0, 0, [0], false, -1, 0, 0⟩ = some copies ∧
      (∀ op : Nat, (([0] : List Int) ++ [Int.ofNat op]) ∈ copies.map CtrlFlit.path ↔
        ∃ k < 2, (vnetVC 2 0 [⟨.ACTIVE, 1, true⟩, ⟨.ACTIVE, 1, false⟩] k).outportRt.toNat = op) ∧
      (copies.map CtrlFlit.path).Nodup ∧
      (∀ q ∈ copies.map CtrlFlit.path, ∃ op : Nat, q = ([0] : List Int) ++ [Int.ofNat op]) :=
  (probe_fork_characterization 2 2 3 5 [⟨.ACTIVE, 1, true⟩, ⟨.ACTIVE, 1, false⟩]
    ["East", "West"] 0 7 ⟨4, 9, 0, 0, 0, [0], false, -1, 0, 0⟩).2.1
    (by decide) (by decide) (by decide) (by decide)

/-- C7: in SA-II grant processing, a granted TAIL or HEAD_TAIL flit leaves
its input VC empty immediately after removal — the not-ready assertion
cannot fire when the TAIL-family flit is the last flit of its VC, which
packet framing guarantees — the VC transitions to IDLE at the current
tick, and the upstream credit carries is_free = true; a granted flit of
any other type sends is_free = false; in both cases exactly one upstream
credit is appended and scheduled on the credit link one cycle later. -/
theorem grant_tail_credit (numInports numVcs : Nat) (outport : Int)
    (inport invc outvc curTick period : Nat) (s : SAIIState)
    (fl : FlitE) (rest : List FlitE)
    (hfifo : ((s.inputVCs.getD inport []).getD invc ⟨.IDLE, 0, [], -1⟩).fifo =
      fl :: rest)
    (hwf : fl.ftype = .TAIL ∨ fl.ftype = .HEAD_TAIL → rest = [])
    (hcred : 0 < s.outU.creditCounts.getD outvc 0)
    (hip : inport < s.inputVCs.length)
    (hvc : invc < (s.inputVCs.getD inport []).length) :
    ∃ s2, processGrant numInports numVcs outport inport invc outvc curTick
        period s = some s2 ∧
      (fl.ftype = .TAIL ∨ fl.ftype = .HEAD_TAIL →
        ((s2.inputVCs.getD inport []).getD invc ⟨.IDLE, 0, [], -1⟩).fifo = [] ∧
        ((s2.inputVCs.getD inport []).getD invc ⟨.IDLE, 0, [], -1⟩).vstate = .IDLE ∧
        ((s2.inputVCs.getD inport []).getD invc ⟨.IDLE, 0, [], -1⟩).stateTime = curTick ∧
        s2.creditLog = s.creditLog ++ [⟨inport, invc, true, curTick, curTick + period⟩]) ∧
      (¬(fl.ftype = .TAIL ∨ fl.ftype = .HEAD_TAIL) →
        s2.creditLog = s.creditLog ++ [⟨inport, invc, false, curTick, curTick + period⟩]) := by
  have hdec : decrementCredit s.outU outvc =
      some { s.outU with
        creditCounts := s.outU.creditCounts.set outvc
          (s.outU.creditCounts.getD outvc 0 - 1) } := by
    unfold decrementCredit
    rw [if_neg (by omega)]
  by_cases htail : fl.ftype = .TAIL ∨ fl.ftype = .HEAD_TAIL
  · have hrest := hwf htail
    subst hrest
    have hb : (fl.ftype == .TAIL || fl.ftype == .HEAD_TAIL) = true := by
      rcases htail with h | h <;> simp [h]
    cases hres : processGrant numInports numVcs outport inport invc outvc
        curTick period s with
    | none =>
      exfalso
      simp only [processGrant, hfifo, hdec, hb, vcIsReady, List.head?,
        incrementCredit, eq_self_iff_true, if_true] at hres
      rw [if_neg (by simp)] at hres
      exact Option.noConfusion hres
    | some s2 =>
      simp only [processGrant, hfifo, hdec, hb, vcIsReady, List.head?,
        incrementCredit, eq_self_iff_true, if_true] at hres
      rw [if_neg (by simp), Option.some_inj] at hres
      subst hres
      refine ⟨_, rfl, fun _ => ?_, fun hcontra => absurd htail hcontra⟩
      constructor
      · rw [getD_set_self _ inport _ [] hip,
          getD_set_self _ invc _ (⟨.IDLE, 0, [], -1⟩ : VCData) (by simpa using hvc)]
      constructor
      · rw [getD_set_self _ inport _ [] hip,
          getD_set_self _ invc _ (⟨.IDLE, 0, [], -1⟩ : VCData) (by simpa using hvc)]
      constructor
      · rw [getD_set_self _ inport _ [] hip,
          getD_set_self _ invc _ (⟨.IDLE, 0, [], -1⟩ : VCData) (by simpa using hvc)]
      · rfl
  · have hb : (fl.ftype == .TAIL || fl.ftype == .HEAD_TAIL) = false := by
      push_neg at htail
      simp [beq_eq_false_iff_ne, htail.1, htail.2]
    cases hres : processGrant numInports numVcs outport inport invc outvc
        curTick period s with
    | none =>
      exfalso
      simp only [processGrant, hfifo, hdec, hb, incrementCredit,
        Bool.false_eq_true, if_false] at hres
      rw [if_neg (by simp)] at hres
      exact Option.noConfusion hres
    | some s2 =>
      simp only [processGrant, hfifo, hdec, hb, incrementCredit,
        Bool.false_eq_true, if_false] at hres
      rw [if_neg (by simp), Option.some_inj] at hres
      subst hres
      exact ⟨_, rfl, fun hcontra => absurd hcontra htail, fun _ => rfl⟩

/-- C7 witness: a granted HEAD_TAIL flit at a concrete router: the VC
empties, goes IDLE at tick 10, and one is_free credit is scheduled one
cycle (3 ticks) later. -/
theorem grant_tail_credit_witness :
    ∃ s2, processGrant 1 1 0 0 0 0 10 3
        ⟨[0], [false], [0], 0, [0],
          [[⟨.ACTIVE, 0, [⟨.HEAD_TAIL, 0, -1, .SA, 0⟩], 2⟩]],
          ⟨[.ACTIVE], [1]⟩, [], []⟩ = some s2 ∧
      ((⟨.HEAD_TAIL, 0, -1, .SA, 0⟩ : FlitE).ftype = .TAIL ∨
        (⟨.HEAD_TAIL, 0, -1, .SA, 0⟩ : FlitE).ftype = .HEAD_TAIL →
        ((s2.inputVCs.getD 0 []).getD 0 ⟨.IDLE, 0, [], -1⟩).fifo = [] ∧
        ((s2.inputVCs.getD 0 []).getD 0 ⟨.IDLE, 0, [], -1⟩).vstate = .IDLE ∧
        ((s2.inputVCs.getD 0 []).getD 0 ⟨.IDLE, 0, [], -1⟩).stateTime = 10 ∧
        s2.creditLog = [] ++ [⟨0, 0, true, 10, 10 + 3⟩]) ∧
      (¬((⟨.HEAD_TAIL, 0, -1, .SA, 0⟩ : FlitE).ftype = .TAIL ∨
         (⟨.HEAD_TAIL, 0, -1, .SA, 0⟩ : FlitE).ftype = .HEAD_TAIL) →
        s2.creditLog = [] ++ [⟨0, 0, false, 10, 10 + 3⟩]) :=
  grant_tail_credit 1 1 0 0 0 0 10 3
    ⟨[0], [false], [0], 0, [0],
      [[⟨.ACTIVE, 0, [⟨.HEAD_TAIL, 0, -1, .SA, 0⟩], 2⟩]],
      ⟨[.ACTIVE], [1]⟩, [], []⟩
    ⟨.HEAD_TAIL, 0, -1, .SA, 0⟩ []
    (by decide) (fun _ => rfl) (by decide) (by decide) (by decide)

theorem scanRequests_eq_find (numInports : Nat) (reqs : List Int)
    (escs : List Bool) (outport : Int) (escOnly : Bool)
    (hn : 0 < numInports) (iter : Nat) :
    ∀ ip : Nat, ip ≤ numInports →
      scanRequests numInports reqs escs outport escOnly iter ip =
        ((List.range iter).map (fun k => (ip + k) % numInports)).find?
          (fun i => reqs.getD i (-1) == outport && (!escOnly || escs.getD i false)) := by
  induction iter with
  | zero =>
    intro ip _
    simp [scanRequests]
  | succ iter ih =>
    intro ip hip
    simp only [scanRequests]
    have hip0 : (if ip ≥ numInports then 0 else ip) = ip % numInports := by
      by_cases h : ip ≥ numInports
      · rw [if_pos h]
        have hix : ip = numInports := by omega
        simp [hix]
      · rw [if_neg h]
        exact (Nat.mod_eq_of_lt (by omega)).symm
    rw [hip0, List.range_succ_eq_map, List.map_cons, List.map_map]
    by_cases hpred : (reqs.getD (ip % numInports) (-1) == outport &&
        (!escOnly || escs.getD (ip % numInports) false)) = true
    · rw [if_pos hpred,
        List.find?_cons_of_pos _ (by rw [Nat.add_zero]; exact hpred),
        Nat.add_zero]
    · rw [if_neg hpred,
        List.find?_cons_of_neg _ (by rw [Nat.add_zero]; exact hpred),
        ih (ip % numInports + 1) (by have := Nat.mod_lt ip hn; omega)]
      congr 1
      apply List.map_congr_left
      intro k _
      simp only [Function.comp]
      rw [Nat.add_assoc, Nat.mod_add_mod, Nat.add_comm 1 k]

theorem chooseInport_eq_find (numInports start : Nat) (reqs : List Int)
    (escs : List Bool) (outport : Int)
    (hn : 0 < numInports) (hs : start ≤ numInports) :
    chooseInport numInports start reqs escs outport =
      (match (rrOrder numInports start).find?
          (fun i => reqs.getD i (-1) == outport && escs.getD i false) with
       | some ip => some ip
       | none => (rrOrder numInports start).find?
           (fun i => reqs.getD i (-1) == outport)) := by
  unfold chooseInport rrOrder
  rw [scanRequests_eq_find numInports reqs escs outport true hn numInports start hs,
    scanRequests_eq_find numInports reqs escs outport false hn numInports start hs]
  simp only [Bool.not_true, Bool.false_or, Bool.not_false, Bool.true_or,
    Bool.and_true]

/-- C3: in SA-II, for every output port the winner is chosen by first
scanning the inports round-robin from rr_inport[outport] for a requester
of this outport with is_escape_req set, and only when no escape requester
exists is any requester selected round-robin; and when the chosen escape
winner still needs a downstream VC but set_escape_vc fails (-1), the
inport's request is cleared and nothing else happens for that outport
this tick — no flit is dequeued, no credit decremented, no upstream
credit sent (the returned state differs from the input state only in that
cleared request, to be retried next cycle). -/
theorem saII_escape_priority_and_failure (escEnabled : Bool)
    (numInports numVcs vcsPerVnet : Nat) (outport : Int)
    (curTick period : Nat) (s : SAIIState)
    (hn : 0 < numInports) (hs : s.rrInportOut ≤ numInports) :
    (chooseInport numInports s.rrInportOut s.portRequests s.isEscapeReq outport =
      (match (rrOrder numInports s.rrInportOut).find?
          (fun i => s.portRequests.getD i (-1) == outport &&
            s.isEscapeReq.getD i false) with
       | some ip => some ip
       | none => (rrOrder numInports s.rrInportOut).find?
           (fun i => s.portRequests.getD i (-1) == outport))) ∧
    (∀ inport : Nat,
      chooseInport numInports s.rrInportOut s.portRequests s.isEscapeReq
        outport = some inport →
      s.isEscapeReq.getD inport false = true →
      escEnabled = true →
      ((s.inputVCs.getD inport []).getD (s.vcWinners.getD inport 0)
        ⟨.IDLE, 0, [], -1⟩).outvc = -1 →
      (setEscapeVC vcsPerVnet s.outU
        ((s.vcWinners.getD inport 0) / vcsPerVnet)).1 = -1 →
      arbitrateOneOutport escEnabled numInports numVcs vcsPerVnet outport
          curTick period s =
        some { s with portRequests := s.portRequests.set inport (-1) }) := by
  constructor
  · exact chooseInport_eq_find numInports s.rrInportOut s.portRequests
      s.isEscapeReq outport hn hs
  · intro inport hchoose hesc hescEn houtvc hfail
    simp only [arbitrateOneOutport, hchoose]
    rw [if_pos houtvc, if_pos (by rw [hesc, hescEn]; rfl), if_pos hfail]

/-- C3 witness: a concrete escape request at inport 0 whose set_escape_vc
fails because the downstream escape VC is ACTIVE: the request is cleared
and the state is otherwise untouched. -/
theorem saII_escape_priority_and_failure_witness :
    arbitrateOneOutport true 2 4 2 0 10 1
        ⟨[0, -1], [true, false], [0, 0], 0, [0, 0],
          [[⟨.ACTIVE, 0, [⟨.HEAD, 0, -1, .SA, 0⟩], -1⟩,
            ⟨.IDLE, 0, [], -1⟩], []],
          ⟨[.ACTIVE, .IDLE], [1, 1]⟩, [], []⟩ =
      some { (⟨[0, -1], [true, false], [0, 0], 0, [0, 0],
          [[⟨.ACTIVE, 0, [⟨.HEAD, 0, -1, .SA, 0⟩], -1⟩,
            ⟨.IDLE, 0, [], -1⟩], []],
          ⟨[.ACTIVE, .IDLE], [1, 1]⟩, [], []⟩ : SAIIState) with
        portRequests := ([0, -1] : List Int).set 0 (-1) } :=
  (saII_escape_priority_and_failure true 2 4 2 0 10 1
    ⟨[0, -1], [true, false], [0, 0], 0, [0, 0],
      [[⟨.ACTIVE, 0, [⟨.HEAD, 0, -1, .SA, 0⟩], -1⟩,
        ⟨.IDLE, 0, [], -1⟩], []],
      ⟨[.ACTIVE, .IDLE], [1, 1]⟩, [], []⟩
    (by decide) (by decide)).2 0 (by decide) (by decide) rfl (by decide) (by decide)

end Garnet
